import Mathlib

/-!
Verification development for the connection core of a Cap'n Proto RPC vat
(package rpc) and its companion server dispatch package.

The Go source is embedded shallowly: machine integers become Nat (ids are
compared, never overflowed), fallible operations return Except or Option,
and the mutex-protected connection state becomes an explicit record that
handlers thread through.  Transport and client-handle side effects (message
sends, buffer releases, client refcount changes) are recorded as events;
the serialization layer is modelled by a small inductive pointer type with
the pointer-field traversal that capnp.Transform performs.  Message sends
in the model always reach the wire successfully; allocation failures of
outbound messages are not modelled.
-/

namespace Rpc

/-! ### Pointers and pipeline transforms (serialization layer model)

A Cap'n Proto pointer is null, a struct with pointer fields, or an
interface (capability) slot holding a capability-table index.  The
pointer-field section of a struct is encoded as a cons chain: the struct
with fields p0, p1, ... is cons p0 (cons p1 ...), ending in null, so
reading a field beyond the section yields the null pointer exactly as the
library does.  capnp.Transform walks getPointerField operations; reading
a field of a non-struct yields the null pointer.  A parsed transform is
the list of field indices (noop elements are dropped by parseTransform). -/

inductive Ptr where
  | null : Ptr
  | cons (hd : Ptr) (tl : Ptr) : Ptr
  | iface (cap : Nat) : Ptr
deriving DecidableEq, Repr

/-- One getPointerField step of capnp.Transform. -/
def transformStep : Ptr → Nat → Ptr
  | .cons hd _, 0 => hd
  | .cons _ tl, f + 1 => transformStep tl f
  | _, _ => .null

/-- capnp.Transform: apply the pipeline ops in order. -/
def transform (p : Ptr) (ops : List Nat) : Ptr :=
  ops.foldl transformStep p

/-- The capability-table index reached by a transform, when it lands on a
valid interface pointer. -/
def reachIdx (content : Ptr) (x : List Nat) : Option Nat :=
  match transform content x with
  | .iface i => some i
  | _ => Option.none

/-! ### Clients

A client handle is identified by its brand: an importClient tied to a
connection, a pipeline client (whose answer may or may not belong to a
question of some connection, as reported by getAnswerQuestion), an error
client, the embargo wrapper installed by Conn.embargo, or an
application-supplied server client.  Connections are named by a Nat. -/

inductive Client where
  | null : Client
  | importOn (conn : Nat) (id : Nat) : Client
  | pipelineFor (questionConn : Option Nat) : Client
  | errorClient (msg : String) : Client
  | embargoed (inner : Client) (eid : Nat) : Client
  | server : Client
deriving DecidableEq, Repr

/-! ### Id allocator

Modelled from the spec: the ID allocator performs monotonic id assignment
with free-list reuse (the idgen type is defined outside the provided
source).  next pops the free list, else increments the counter; remove
pushes an id back on the free list. -/

structure IdGen where
  free : List Nat
  next : Nat
deriving DecidableEq, Repr

def IdGen.alloc : IdGen → Nat × IdGen
  | ⟨[], n⟩ => (n, ⟨[], n + 1⟩)
  | ⟨x :: xs, n⟩ => (x, ⟨xs, n⟩)

def IdGen.remove (g : IdGen) (i : Nat) : IdGen :=
  ⟨i :: g.free, g.next⟩

/-- An id is currently held out of the allocator (visible to the peer). -/
def IdGen.inUse (g : IdGen) (i : Nat) : Prop :=
  i < g.next ∧ i ∉ g.free

instance (g : IdGen) (i : Nat) : Decidable (g.inUse i) := by
  unfold IdGen.inUse; infer_instance

/-- Well-formedness of the allocator: free ids were allocated before and
are not repeated. -/
def IdGen.WF (g : IdGen) : Prop :=
  (∀ x ∈ g.free, x < g.next) ∧ g.free.Nodup

instance (g : IdGen) : Decidable g.WF := by
  unfold IdGen.WF; infer_instance

/-! ### Table entries -/

/-- A question entry (local call to the remote vat).  Only the fields the
embedded operations consult are carried. -/
structure Question where
  finished : Bool
  finishSent : Bool
  isBootstrap : Bool
  called : List (List Nat)
deriving DecidableEq, Repr

/-- An answer entry (call from the remote vat). -/
structure Answer where
  returnSent : Bool
  finishReceived : Bool
  releaseResultCaps : Bool
  resultsReady : Bool
  err : Option String
  content : Ptr
  capTable : List Client
  hasCancel : Bool
deriving DecidableEq, Repr

/-- A blank answer record (zeroed fields, as left behind on the error
paths of handleCall before the connection fails). -/
def Answer.empty : Answer :=
  ⟨false, false, false, false, Option.none, .null, [], false⟩

/-- An answer whose Return carrying an exception has been sent. -/
def Answer.exceptionAns (e : String) : Answer :=
  ⟨true, false, false, false, some e, .null, [], false⟩

/-- An answer dispatched to the local vat, Return not yet sent. -/
def Answer.pending : Answer :=
  ⟨false, false, false, false, Option.none, .null, [], true⟩

/-- An export entry: the exposed client with its wire refcount. -/
structure Expent where
  client : Client
  wireRefs : Nat
deriving DecidableEq, Repr

/-! ### Connection state

The mutex-protected state of a Conn: the closing flag, the five tables
with their id allocators, and flags recording the externally visible
shutdown milestones (background context canceled, transport closed, Done
closed).  answers and imports are maps in the source and are embedded as
association lists; questions, exports and embargoes are slices indexed by
id and are embedded as lists of options. -/

structure Conn where
  connId : Nat
  bootstrap : Client
  closing : Bool
  bgCanceled : Bool
  doneClosed : Bool
  transportClosed : Bool
  questions : List (Option Question)
  questionID : IdGen
  answers : List (Nat × Answer)
  exports : List (Option Expent)
  exportID : IdGen
  imports : List (Nat × Nat)
  embargoes : List (Option Unit)
  embargoID : IdGen
deriving DecidableEq, Repr

/-- Set index i of an id-indexed table, growing it as the source slices
grow when a fresh id equals the length. -/
def setGrow {α : Type} (l : List (Option α)) (i : Nat) (v : Option α) : List (Option α) :=
  if i < l.length then l.set i v
  else l ++ List.replicate (i - l.length) Option.none ++ [v]

/-- Update the value stored under key k of an association list. -/
def mapSet {α : Type} (l : List (Nat × α)) (k : Nat) (v : α) : List (Nat × α) :=
  l.map fun p => if p.1 = k then (k, v) else p

/-- Remove key k from an association list. -/
def mapErase {α : Type} (l : List (Nat × α)) (k : Nat) : List (Nat × α) :=
  l.filter fun p => !(p.1 == k)

/-! ### Externally visible effects

Sends, buffer releases, reports and callback firings are recorded as
events; the client-handle and transport layers that perform them are
external collaborators. -/

inductive Event where
  | reported (msg : String)
  | releasedMsg
  | sentUnimplemented
  | sentAbort
  | sentReturnException (aid : Nat)
  | sentReturn (aid : Nat)
  | sentFinish (qid : Nat)
  | sentDisembargoSender (eid : Nat) (qid : Nat) (xform : List Nat)
  | sentDisembargoReceiver (eid : Nat) (impId : Nat)
  | dispatchedCall (aid : Nat)
  | dispatchedPipelineCall (aid : Nat)
  | resolvedPromise (qid : Nat) (ok : Bool)
  | fulfilledBootstrap (qid : Nat)
  | scheduledReclaimWaiter (qid : Nat)
  | releasedClient
  | liftedEmbargo (eid : Nat)
  | canceledCall (aid : Nat)
  | canceledAnswers
  | drainedSendQueue
  | canceledBg
  | closedTransport
  | closedDone
deriving DecidableEq, Repr

/-- The outcome of one inbound-message handler: the new connection state,
the effects performed, and the fatal error (a non-nil error makes the
receive loop return, which shuts the connection down). -/
structure HandlerResult where
  conn : Conn
  events : List Event
  err : Option String
deriving DecidableEq, Repr

/-! ### Capability descriptors and payloads -/

inductive CapDescriptor where
  | none : CapDescriptor
  | senderHosted (id : Nat) : CapDescriptor
  | senderPromise (id : Nat) : CapDescriptor
  | receiverHosted (id : Nat) : CapDescriptor
  | receiverAnswer (qid : Nat) (xform : List Nat) : CapDescriptor
  | unknown (w : Nat) : CapDescriptor
deriving DecidableEq, Repr

/-- A payload: its content pointer and capability-descriptor table.
isNull models the null-pointer payload accepted by recvPayload. -/
structure Payld where
  isNull : Bool
  content : Ptr
  capDescs : List CapDescriptor
deriving DecidableEq, Repr

/-- findExport: exports slice lookup, nil beyond the length. -/
def Conn.findExport (c : Conn) (id : Nat) : Option Expent :=
  c.exports.getD id Option.none

/-- Modelled from the spec (§4.11 Imports; addImport is defined outside
the provided source): each receipt of an import id takes a reference; on
first receipt the importClient stub for this connection is created. -/
def Conn.addImport (c : Conn) (id : Nat) : Client × Conn :=
  match c.imports.lookup id with
  | some n => (.importOn c.connId id, { c with imports := mapSet c.imports id (n + 1) })
  | Option.none => (.importOn c.connId id, { c with imports := (id, 1) :: c.imports })

/-- Helper for Conn.recvCap: the receiverAnswer case.  An unresolved
answer yields a pipeline client rooted at the local answer (which no
question of any connection owns), an errored answer yields an error
client, and a resolved one resolves the transform against the results. -/
def Conn.recvCapReceiverAnswer (ans : Answer) (xform : List Nat) : Client :=
  if ans.resultsReady = false then
    .pipelineFor Option.none
  else
    match ans.err with
    | some e => .errorClient e
    | Option.none =>
      match transform ans.content xform with
      | .iface i => ans.capTable.getD i .null
      | _ => .errorClient "Result is not a capability"

/-- recvCap materializes a client for a given descriptor.  A returned
error indicates a protocol violation. -/
def Conn.recvCap (c : Conn) (d : CapDescriptor) : Except String (Client × Conn) :=
  match d with
  | .none => .ok (.null, c)
  | .senderHosted id => .ok (c.addImport id)
  | .senderPromise id => .ok (c.addImport id)
  | .receiverHosted id =>
    match c.findExport id with
    | Option.none => .error "receive capability: invalid export"
    | some ent => .ok (ent.client, c)
  | .receiverAnswer qid xform =>
    match c.answers.lookup qid with
    | Option.none => .error "receive capability: no such question id"
    | some ans => .ok (Conn.recvCapReceiverAnswer ans xform, c)
  | .unknown _ => .ok (.errorClient "unknown CapDescriptor type", c)

/-- Whether the client should be treated as local for the purpose of
embargoes.  Null clients and error clients are not local; imports and
question pipelines are local exactly when they live on a different
connection (then this vat is proxying them). -/
def isLocalClient (connId : Nat) : Client → Bool
  | .null => false
  | .importOn conn _ => conn != connId
  | .pipelineFor (some qconn) => qconn != connId
  | .pipelineFor Option.none => true
  | .errorClient _ => false
  | .embargoed _ _ => true
  | .server => true

/-- The walk of recvPayload over the descriptor table: materialize each
client, recording the indices whose client is local. -/
def recvCaps (cid : Nat) (c : Conn) : List CapDescriptor → Nat →
    Except String (List Client × List Nat × Conn)
  | [], _ => .ok ([], [], c)
  | d :: ds, i =>
    match c.recvCap d with
    | .error e => .error e
    | .ok (cl, c1) =>
      match recvCaps cid c1 ds (i + 1) with
      | .error e => .error e
      | .ok (cls, locs, c2) =>
        .ok (cl :: cls, (if isLocalClient cid cl then [i] else []) ++ locs, c2)

/-- The result of recvPayload: the content pointer, the set of local
capability-table indices, and the capability table installed on the
message. -/
structure RecvPayloadRes where
  content : Ptr
  locals : List Nat
  mtab : List Client
deriving DecidableEq, Repr

/-- recvPayload extracts the content pointer after populating the
message capability table, also returning the local index set.  A null
payload reads as empty.  On a failed walk the error propagates (the
clients materialized so far are released by the client-handle layer). -/
def Conn.recvPayload (c : Conn) (pl : Payld) : Except String (RecvPayloadRes × Conn) :=
  if pl.isNull then .ok (⟨.null, [], []⟩, c)
  else
    match recvCaps c.connId c pl.capDescs 0 with
    | .error e => .error e
    | .ok (mtab, locals, c1) => .ok (⟨pl.content, locals, mtab⟩, c1)

/-! ### Embargoes and parseReturn -/

/-- Modelled from the spec (§4.6, §3 Embargo; Conn.embargo is defined
outside the provided source): allocate a fresh embargo id from the
embargo id allocator, register the entry with its lift callback in the
embargo table, and return the id together with a wrapper client that
gates outbound calls on the original until lifted. -/
def Conn.embargo (c : Conn) (client : Client) : Nat × Client × Conn :=
  let a := c.embargoID.alloc
  (a.1, .embargoed client a.1,
    { c with embargoID := a.2, embargoes := setGrow c.embargoes a.1 (some ()) })

/-- A scheduled senderLoopback Disembargo: the embargo id, the question
whose Return created it, and the pipeline-transform path. -/
structure SenderLoopback where
  id : Nat
  question : Nat
  xform : List Nat
deriving DecidableEq, Repr

/-- The accumulator of the embargo-installation loop of parseReturn. -/
structure EmLoop where
  conn : Conn
  mtab : List Client
  embargoCaps : List Nat
  disembargoes : List SenderLoopback
deriving Repr

/-- One iteration of the embargo loop of parseReturn: if the transform
reaches a valid interface whose index is in range, local, and not yet
embargoed, replace the table slot with an embargo wrapper and schedule a
senderLoopback Disembargo. -/
def embargoStep (qid : Nat) (content : Ptr) (locals : List Nat)
    (acc : EmLoop) (xform : List Nat) : EmLoop :=
  match transform content xform with
  | .iface i =>
    if i < acc.mtab.length && locals.contains i && !(acc.embargoCaps.contains i) then
      let r := acc.conn.embargo (acc.mtab.getD i .null)
      { conn := r.2.2
        mtab := acc.mtab.set i r.2.1
        embargoCaps := i :: acc.embargoCaps
        disembargoes := acc.disembargoes ++ [⟨r.1, qid, xform⟩] }
    else acc
  | _ => acc

/-- The parsed form of an incoming Return. -/
structure ParsedReturn where
  result : Ptr
  disembargoes : List SenderLoopback
  capTable : List Client
  err : Option String
  parseFailed : Bool
  unimplemented : Bool
deriving Repr

/-- The body of an incoming Return message. -/
inductive ReturnBody where
  | results (pl : Payld) : ReturnBody
  | exception (reason : String) : ReturnBody
  | unknownKind (w : Nat) : ReturnBody
deriving Repr

/-- An incoming Return message. -/
structure ReturnMsg where
  answerId : Nat
  body : ReturnBody
deriving Repr

/-- parseReturn: fill in the message capability table from the payload,
then walk every pipeline-transform path previously sent against the
question (called) and install embargoes on local capabilities; exceptions
and unhandled kinds produce an error result. -/
def Conn.parseReturn (c : Conn) (ret : ReturnMsg) (called : List (List Nat)) :
    ParsedReturn × Conn :=
  match ret.body with
  | .results pl =>
    match c.recvPayload pl with
    | .error e =>
      (⟨.null, [], [], some ("parse return: " ++ e), true, false⟩, c)
    | .ok (res, c1) =>
      let fin := called.foldl (embargoStep ret.answerId res.content res.locals)
        ⟨c1, res.mtab, [], []⟩
      (⟨res.content, fin.disembargoes, fin.mtab, Option.none, false, false⟩, fin.conn)
  | .exception reason =>
    (⟨.null, [], [], some reason, false, false⟩, c)
  | .unknownKind _ =>
    (⟨.null, [], [], some "parse return: unhandled type", true, true⟩, c)

/-! ### handleReturn

The finishMsgSend completion signal of a canceled question is represented
by the Boolean signalFired: when the Finish written by the cancel path
has already been flushed the select takes the first branch, otherwise a
waiter task is scheduled that runs finishMsgSendFired when the signal
eventually closes.  Sends issued by the handler itself are modelled as
succeeding, so on the non-canceled path the Finish completion callback
sets finishSent and reclaims the id directly. -/

/-- The waiter spawned by handleReturn for a canceled question: when the
finishMsgSend signal fires it reclaims the question id exactly when the
finishSent flag was set by a successful send of the Finish message. -/
def finishMsgSendFired (c : Conn) (qid : Nat) (finishSentFlag : Bool) : Conn :=
  if finishSentFlag then { c with questionID := c.questionID.remove qid } else c

def Conn.handleReturn (c : Conn) (ret : ReturnMsg) (signalFired : Bool) : HandlerResult :=
  let qid := ret.answerId
  if hq : qid < c.questions.length then
    match c.questions.get ⟨qid, hq⟩ with
    | Option.none => ⟨c, [.releasedMsg], some "incoming return: question does not exist"⟩
    | some q =>
      let c0 := { c with questions := c.questions.set qid Option.none }
      if q.finished then
        if signalFired then
          if q.finishSent then
            ⟨{ c0 with questionID := c0.questionID.remove qid }, [.releasedMsg], Option.none⟩
          else ⟨c0, [.releasedMsg], Option.none⟩
        else ⟨c0, [.releasedMsg, .scheduledReclaimWaiter qid], Option.none⟩
      else
        let prc := c0.parseReturn ret q.called
        let pr := prc.1
        let evParse := if pr.parseFailed then [Event.reported "incoming return"] else []
        let evResolve := Event.resolvedPromise qid pr.err.isNone ::
          (if q.isBootstrap then [Event.fulfilledBootstrap qid, Event.releasedMsg]
           else if pr.err.isSome then [Event.releasedMsg] else [])
        let evDis := pr.disembargoes.map fun s => Event.sentDisembargoSender s.id s.question s.xform
        ⟨{ prc.2 with questionID := prc.2.questionID.remove qid },
         evParse ++ evResolve ++ evDis ++ [.sentFinish qid], Option.none⟩
  else ⟨c, [.releasedMsg], some "incoming return: question does not exist"⟩

/-! ### handleFinish -/

def Conn.handleFinish (c : Conn) (id : Nat) (releaseResultCaps : Bool) : HandlerResult :=
  match c.answers.lookup id with
  | Option.none => ⟨c, [], some "incoming finish: unknown answer ID"⟩
  | some ans =>
    if ans.finishReceived then
      ⟨c, [], some "incoming finish: answer ID already received finish"⟩
    else
      let ans1 := { ans with finishReceived := true,
                             releaseResultCaps := ans.releaseResultCaps || releaseResultCaps }
      let evCancel := if ans.hasCancel then [Event.canceledCall id] else []
      if ans.returnSent = false then
        ⟨{ c with answers := mapSet c.answers id ans1 }, evCancel, Option.none⟩
      else
        ⟨{ c with answers := mapErase c.answers id }, evCancel ++ [.releasedClient], Option.none⟩

/-! ### handleBootstrap -/

def Conn.handleBootstrap (c : Conn) (id : Nat) : HandlerResult :=
  match c.answers.lookup id with
  | some _ => ⟨c, [], some "incoming bootstrap: answer ID reused"⟩
  | Option.none =>
    if c.bootstrap = Client.null then
      ⟨{ c with answers :=
          (id, Answer.exceptionAns "vat does not expose a public/bootstrap interface") :: c.answers },
       [.sentReturnException id], Option.none⟩
    else
      ⟨{ c with answers :=
          (id, ⟨true, false, false, true, Option.none, .iface 0, [c.bootstrap], false⟩) :: c.answers },
       [.sentReturn id], Option.none⟩

/-! ### handleCall -/

inductive SendResultsTo where
  | caller : SendResultsTo
  | yourself : SendResultsTo
  | thirdParty : SendResultsTo
deriving DecidableEq, Repr

/-- A message target, as parseMessageTarget classifies it; unknownTarget
is a target union member this level does not understand. -/
inductive MessageTarget where
  | importedCap (id : Nat) : MessageTarget
  | promisedAnswer (qid : Nat) (xform : List Nat) : MessageTarget
  | unknownTarget (w : Nat) : MessageTarget
deriving DecidableEq, Repr

/-- An incoming Call message. -/
structure CallMsg where
  questionId : Nat
  sendResultsTo : SendResultsTo
  target : MessageTarget
  params : Payld
deriving Repr

/-- The target of a successfully parsed call. -/
inductive ParsedTarget where
  | importedCap (id : Nat) : ParsedTarget
  | promisedAnswer (qid : Nat) (xform : List Nat) : ParsedTarget
deriving DecidableEq, Repr

/-- A parsed call: its target and argument struct. -/
structure ParsedCall where
  target : ParsedTarget
  args : Ptr
deriving Repr

/-- parseCall: populate the parameter capability table, then parse the
message target; an unknown target kind is a parse error. -/
def Conn.parseCall (c : Conn) (call : CallMsg) : Except String (ParsedCall × Conn) :=
  match c.recvPayload call.params with
  | .error e => .error ("read params: " ++ e)
  | .ok (res, c1) =>
    match call.target with
    | .importedCap id => .ok (⟨.importedCap id, res.content⟩, c1)
    | .promisedAnswer qid xform => .ok (⟨.promisedAnswer qid xform, res.content⟩, c1)
    | .unknownTarget _ => .error "unknown message target"

def Conn.handleCall (c : Conn) (call : CallMsg) : HandlerResult :=
  let id := call.questionId
  if call.sendResultsTo ≠ SendResultsTo.caller then
    ⟨c, [.reported "incoming call: results destination is not caller",
         .sentUnimplemented, .releasedMsg], Option.none⟩
  else
    match c.answers.lookup id with
    | some _ => ⟨c, [.releasedMsg], some "incoming call: answer ID reused"⟩
    | Option.none =>
      match c.parseCall call with
      | .error e =>
        ⟨{ c with answers := (id, Answer.exceptionAns ("incoming call: " ++ e)) :: c.answers },
         [.sentReturnException id, .reported ("incoming call: " ++ e), .releasedMsg], Option.none⟩
      | .ok (p, c1) =>
        match p.target with
        | .importedCap eid =>
          match c1.findExport eid with
          | Option.none =>
            ⟨{ c1 with answers := (id, Answer.empty) :: c1.answers }, [.releasedMsg],
             some "incoming call: unknown export ID"⟩
          | some _ =>
            ⟨{ c1 with answers := (id, Answer.pending) :: c1.answers },
             [.dispatchedCall id], Option.none⟩
        | .promisedAnswer pqid _ =>
          match c1.answers.lookup pqid with
          | Option.none =>
            ⟨{ c1 with answers := (id, Answer.empty) :: c1.answers }, [.releasedMsg],
             some "incoming call: use of unknown or finished answer ID for promised answer target"⟩
          | some tgtAns =>
            if tgtAns.finishReceived then
              ⟨{ c1 with answers := (id, Answer.empty) :: c1.answers }, [.releasedMsg],
               some "incoming call: use of unknown or finished answer ID for promised answer target"⟩
            else if tgtAns.resultsReady then
              match tgtAns.err with
              | some e =>
                ⟨{ c1 with answers := (id, Answer.exceptionAns e) :: c1.answers },
                 [.sentReturnException id, .releasedMsg], Option.none⟩
              | Option.none =>
                ⟨{ c1 with answers := (id, Answer.pending) :: c1.answers },
                 [.dispatchedCall id], Option.none⟩
            else
              ⟨{ c1 with answers := (id, Answer.pending) :: c1.answers },
               [.dispatchedPipelineCall id], Option.none⟩

/-! ### handleRelease -/

/-- Modelled from the spec (§4.11 Exports; releaseExport is defined
outside the provided source): decrement the export wire refcount by the
reported count; reaching zero erases the entry and releases the client;
an unknown id or an over-count is a protocol error. -/
def Conn.handleRelease (c : Conn) (id : Nat) (count : Nat) : HandlerResult :=
  match c.findExport id with
  | Option.none => ⟨c, [], some "incoming release: unknown export ID"⟩
  | some ent =>
    if ent.wireRefs < count then
      ⟨c, [], some "incoming release: too many references"⟩
    else if ent.wireRefs = count then
      ⟨{ c with exports := c.exports.set id Option.none, exportID := c.exportID.remove id },
       [.releasedClient], Option.none⟩
    else
      ⟨{ c with exports := c.exports.set id (some ⟨ent.client, ent.wireRefs - count⟩) },
       [], Option.none⟩

/-! ### handleDisembargo -/

inductive DisembargoCtx where
  | senderLoopback (id : Nat) : DisembargoCtx
  | receiverLoopback (id : Nat) : DisembargoCtx
  | other (w : Nat) : DisembargoCtx
deriving DecidableEq, Repr

structure DisembargoMsg where
  target : MessageTarget
  ctx : DisembargoCtx
deriving Repr

/-- The body of the senderLoopback branch that runs under the connection
lock: locate the promised answer, check it has sent a Return without an
exception, apply the transform, and extract the capability-table slot. -/
def Conn.senderLoopbackTargetClient (c : Conn) (tgt : MessageTarget) : Except String Client :=
  match tgt with
  | .promisedAnswer aqid xform =>
    match c.answers.lookup aqid with
    | Option.none => .error "incoming disembargo: unknown answer ID"
    | some a =>
      if a.returnSent = false then
        .error "incoming disembargo: answer ID has not sent return"
      else
        match a.err with
        | some _ => .error "incoming disembargo: answer ID returned exception"
        | Option.none =>
          match transform a.content xform with
          | .iface i =>
            if i < a.capTable.length then .ok (a.capTable.getD i .null)
            else .error "incoming disembargo: sender loopback requested on a capability that is not an import"
          | _ => .error "incoming disembargo: sender loopback requested on a capability that is not an import"
  | _ => .error "incoming disembargo: sender loopback: target is not a promised answer"

def Conn.findEmbargo (c : Conn) (id : Nat) : Option Unit :=
  c.embargoes.getD id Option.none

def Conn.handleDisembargo (c : Conn) (d : DisembargoMsg) : HandlerResult :=
  match d.target with
  | .unknownTarget _ => ⟨c, [.releasedMsg], some "incoming disembargo: unknown message target"⟩
  | _ =>
    match d.ctx with
    | .receiverLoopback id =>
      match c.findEmbargo id with
      | Option.none =>
        ⟨c, [.releasedMsg], some "incoming disembargo: received sender loopback for unknown ID"⟩
      | some _ =>
        ⟨{ c with embargoes := c.embargoes.set id Option.none,
                  embargoID := c.embargoID.remove id },
         [.liftedEmbargo id, .releasedMsg], Option.none⟩
    | .senderLoopback id =>
      match c.senderLoopbackTargetClient d.target with
      | .error e => ⟨c, [.releasedMsg], some e⟩
      | .ok client =>
        match client with
        | .importOn conn impId =>
          if conn = c.connId then
            ⟨c, [.sentDisembargoReceiver id impId, .releasedMsg, .releasedClient], Option.none⟩
          else
            ⟨c, [.releasedClient],
             some "incoming disembargo: sender loopback requested on a capability that is not an import"⟩
        | _ =>
          ⟨c, [.releasedClient],
           some "incoming disembargo: sender loopback requested on a capability that is not an import"⟩
    | .other _ =>
      ⟨c, [.reported "incoming disembargo: context not implemented",
           .sentUnimplemented, .releasedMsg], Option.none⟩

/-! ### The receive dispatch loop -/

structure FinishMsg where
  questionId : Nat
  releaseResultCaps : Bool
deriving DecidableEq, Repr

structure ReleaseMsg where
  id : Nat
  count : Nat
deriving DecidableEq, Repr

/-- An inbound message after framing: for each kind carrying a body, the
body is Option.none when reading it from the message fails (a parse
error). -/
inductive InMsg where
  | unimplemented : InMsg
  | abort (body : Option String) : InMsg
  | bootstrap (body : Option Nat) : InMsg
  | call (body : Option CallMsg) : InMsg
  | ret (body : Option ReturnMsg) : InMsg
  | finish (body : Option FinishMsg) : InMsg
  | release (body : Option ReleaseMsg) : InMsg
  | disembargo (body : Option DisembargoMsg) : InMsg
  | unknown (w : Nat) : InMsg
deriving Repr

/-- What the receive loop does after one message: continue to the next
message, or return (Option.none for the graceful return after a remote
abort, some e for an error that is sent to the remote vat as an abort
and shuts the connection down). -/
inductive LoopAction where
  | next : LoopAction
  | halt (err : Option String) : LoopAction
deriving DecidableEq, Repr

/-- Lift a handler result to a loop action. -/
def HandlerResult.action (r : HandlerResult) : LoopAction :=
  match r.err with
  | some e => .halt (some e)
  | Option.none => .next

/-- One iteration of the receive loop: the switch on the message
discriminant.  signalFired is the state of the finishMsgSend signal
consulted by handleReturn for canceled questions. -/
def receiveStep (c : Conn) (m : InMsg) (signalFired : Bool) : Conn × List Event × LoopAction :=
  match m with
  | .unimplemented => (c, [], .next)
  | .abort body =>
    match body with
    | Option.none => (c, [.reported "read abort", .releasedMsg], .halt Option.none)
    | some reason =>
      (c, [.reported ("remote abort: " ++ reason), .releasedMsg], .halt Option.none)
  | .bootstrap body =>
    match body with
    | Option.none => (c, [.releasedMsg, .reported "read bootstrap"], .next)
    | some qid =>
      let r := c.handleBootstrap qid
      (r.conn, .releasedMsg :: r.events, r.action)
  | .call body =>
    match body with
    | Option.none => (c, [.releasedMsg, .reported "read call"], .next)
    | some call =>
      let r := c.handleCall call
      (r.conn, r.events, r.action)
  | .ret body =>
    match body with
    | Option.none => (c, [.releasedMsg, .reported "read return"], .next)
    | some ret =>
      let r := c.handleReturn ret signalFired
      (r.conn, r.events, r.action)
  | .finish body =>
    match body with
    | Option.none => (c, [.releasedMsg, .reported "read finish"], .next)
    | some fin =>
      let r := c.handleFinish fin.questionId fin.releaseResultCaps
      (r.conn, .releasedMsg :: r.events, r.action)
  | .release body =>
    match body with
    | Option.none => (c, [.releasedMsg, .reported "read release"], .next)
    | some rel =>
      let r := c.handleRelease rel.id rel.count
      (r.conn, .releasedMsg :: r.events, r.action)
  | .disembargo body =>
    match body with
    | Option.none => (c, [.releasedMsg, .reported "read disembargo"], .next)
    | some d =>
      let r := c.handleDisembargo d
      (r.conn, r.events, r.action)
  | .unknown _ =>
    (c, [.reported "unknown message type from remote", .sentUnimplemented, .releasedMsg], .next)

/-! ### Shutdown -/

/-- shutdown tears the connection down: on the first call it sets the
closing flag, cancels the background context and the running answers,
drains the send queue, clears all five tables (releasing their clients),
sends the abort when a cause is given, closes the transport, and closes
the Done channel.  A later call observes closing and only waits on the
Done channel, performing no effect. -/
def Conn.shutdown (c : Conn) (abortErr : Option String) : Conn × List Event :=
  if c.closing then (c, [])
  else
    ({ c with closing := true, bgCanceled := true,
              questions := [], answers := [], exports := [], imports := [], embargoes := [],
              transportClosed := true, doneClosed := true },
     [Event.canceledBg, Event.canceledAnswers, Event.drainedSendQueue, Event.releasedClient]
       ++ (match abortErr with | some _ => [Event.sentAbort] | Option.none => [])
       ++ [Event.closedTransport, Event.closedDone])

/-- Close sends an abort to the remote vat and closes the underlying
transport, via the idempotent shutdown. -/
def Conn.close (c : Conn) : Conn × List Event :=
  c.shutdown (some "connection closed")

end Rpc

namespace Server

/-! ### The server dispatch package

A Method is identified by its interface and method ids; the
implementation function and result size do not affect lookup and are
abstracted as a tag.  server.New copies the method list and sorts it
with sort.Sort under the (InterfaceID, MethodID) order; sortedMethods.find
runs sort.Search (the standard-library binary search) and checks the
element it lands on. -/

structure Method where
  interfaceId : Nat
  methodId : Nat
  impl : Nat
deriving DecidableEq, Repr

/-- sortedMethods.Less as a non-strict Bool order usable for sorting: by
InterfaceID, then MethodID. -/
def methodLe (a b : Method) : Bool :=
  decide (a.interfaceId < b.interfaceId) ||
    (a.interfaceId == b.interfaceId && decide (a.methodId ≤ b.methodId))

/-- sort.Search: binary search for the least index in the interval with
f true, assuming f monotone; outside the Go loop invariant it returns the
upper bound. -/
def sortSearchAux (f : Nat → Bool) (i j : Nat) : Nat :=
  if h : i < j then
    let m := (i + j) / 2
    if f m then sortSearchAux f i m
    else sortSearchAux f (m + 1) j
  else i
termination_by j - i
decreasing_by
  all_goals simp_wf
  all_goals omega

/-- The predicate passed to sort.Search by sortedMethods.find. -/
def findPred (sm : List Method) (iid mid : Nat) (i : Nat) : Bool :=
  let m := sm.getD i ⟨0, 0, 0⟩
  if m.interfaceId ≠ iid then decide (iid ≤ m.interfaceId)
  else decide (mid ≤ m.methodId)

/-- sortedMethods.find: the method with the given id, or none. -/
def find (sm : List Method) (iid mid : Nat) : Option Method :=
  let i := sortSearchAux (findPred sm iid mid) 0 sm.length
  if i < sm.length then
    let m := sm.getD i ⟨0, 0, 0⟩
    if m.interfaceId ≠ iid ∨ m.methodId ≠ mid then Option.none else some m
  else Option.none

/-- server.New, restricted to the dispatch table it builds: copy the
method list and sort it.  sort.Sort is the standard-library sort,
consumed through its contract of producing a sorted permutation. -/
def new (methods : List Method) : List Method :=
  methods.mergeSort methodLe

end Server

namespace Rpc

/-! ### Concrete fixtures used by witnesses and counterexamples -/

/-- A freshly created connection (empty tables), named connection 0, with
a bootstrap capability configured. -/
def conn0 : Conn :=
  { connId := 0, bootstrap := .server, closing := false, bgCanceled := false,
    doneClosed := false, transportClosed := false,
    questions := [], questionID := ⟨[], 0⟩, answers := [], exports := [],
    exportID := ⟨[], 0⟩, imports := [], embargoes := [], embargoID := ⟨[], 0⟩ }

/-- conn0 with one live, unfinished, non-bootstrap question (id 0). -/
def conn8 : Conn :=
  { conn0 with questions := [some ⟨false, false, false, []⟩], questionID := ⟨[], 1⟩ }

/-- A Return for question 0 whose payload names a receiverHosted export
that does not exist. -/
def ret8 : ReturnMsg :=
  ⟨0, .results ⟨false, .null, [.receiverHosted 0]⟩⟩

/-! ### C2: local/remote classification -/

/-- The classification as the spec states it (§4.3), for comparison with
the code: a capability is local unless it is an import on this
connection, a pipeline client for a question on this connection, or an
error client. -/
def isLocalClientSpec (connId : Nat) : Client → Bool
  | .importOn conn _ => conn != connId
  | .pipelineFor (some qconn) => qconn != connId
  | .errorClient _ => false
  | _ => true

/-- C2 counterexample: the null client appears in a received payload
capability table (a none descriptor materializes it), is none of the
three exceptions the claim lists, yet isLocalClient classifies it as not
local, contradicting the claim as stated. -/
theorem isLocalClient_null_cex :
    conn0.recvPayload ⟨false, .null, [CapDescriptor.none]⟩ =
      .ok (⟨.null, [], [Client.null]⟩, conn0) ∧
    isLocalClient 0 Client.null = false ∧
    isLocalClientSpec 0 Client.null = true :=
  ⟨rfl, rfl, rfl⟩

/-- C2 (amended): isLocalClient classifies a client as local unless it
is the null client, an importClient whose connection is this connection,
a pipeline client for a question on this connection, or an error client;
in particular imports and pipeline clients belonging to a different
connection are classified as local. -/
theorem isLocalClient_characterization (cid : Nat) (cl : Client) :
    isLocalClient cid cl = true ↔
      cl ≠ .null ∧ (∀ i, cl ≠ .importOn cid i) ∧
      cl ≠ .pipelineFor (some cid) ∧ (∀ m, cl ≠ .errorClient m) := by
  cases cl with
  | null => simp [isLocalClient]
  | importOn conn i =>
    simp only [isLocalClient, bne_iff_ne, ne_eq, Client.importOn.injEq]
    constructor
    · intro h
      refine ⟨by simp, ?_, by simp, by simp⟩
      intro i2 hi
      exact h hi.1
    · intro h hc
      exact (h.2.1 i) ⟨hc, rfl⟩
  | pipelineFor q =>
    cases q with
    | none => simp [isLocalClient]
    | some qconn =>
      simp only [isLocalClient, bne_iff_ne, ne_eq, Client.pipelineFor.injEq, Option.some.injEq]
      constructor
      · intro h
        exact ⟨by simp, by simp, fun hc => h hc, by simp⟩
      · intro h hc
        exact h.2.2.1 hc
  | errorClient m =>
    simp only [isLocalClient, ne_eq, Client.errorClient.injEq]
    constructor
    · intro h
      exact absurd h (by simp)
    · intro h
      exact absurd rfl (h.2.2.2 m)
  | embargoed inner eid => simp [isLocalClient]
  | server => simp [isLocalClient]

/-! ### C5: idempotent shutdown -/

/-- C5: the first Close performs the full teardown, setting the closing
flag, canceling the background context and the answers, draining the
send queue, clearing all five tables, sending exactly one abort, closing
the transport and closing the Done channel; any later Close observes the
closing flag, performs none of those steps again, and returns the same
state with no further effect. -/
theorem close_idempotent (c : Conn) (h : c.closing = false) :
    (c.close).1.closing = true ∧
    (c.close).1.bgCanceled = true ∧
    (c.close).1.questions = [] ∧
    (c.close).1.answers = [] ∧
    (c.close).1.exports = [] ∧
    (c.close).1.imports = [] ∧
    (c.close).1.embargoes = [] ∧
    (c.close).1.transportClosed = true ∧
    (c.close).1.doneClosed = true ∧
    (c.close).2.count Event.sentAbort = 1 ∧
    Event.canceledBg ∈ (c.close).2 ∧
    Event.canceledAnswers ∈ (c.close).2 ∧
    Event.drainedSendQueue ∈ (c.close).2 ∧
    (c.close).1.close = ((c.close).1, []) ∧
    (∀ e, (c.close).1.shutdown e = ((c.close).1, [])) := by
  simp [Conn.close, Conn.shutdown, h, List.count_cons]

/-- Witness for close_idempotent at the fresh connection. -/
theorem close_idempotent_witness :
    conn0.closing = false ∧ (conn0.close).1.close = ((conn0.close).1, []) :=
  ⟨rfl, (close_idempotent conn0 rfl).2.2.2.2.2.2.2.2.2.2.2.2.2.1⟩

/-! ### C6: parse errors in inbound messages -/

/-- C6 counterexample: an abort message whose body fails to parse is
reported and its buffer released, but the receive loop does not continue
to the next message; it returns (nil), which shuts the connection down,
contradicting the claim that every kind on which a parse is attempted
(abort included) continues the loop. -/
theorem receive_abort_parse_fail_halts_cex :
    receiveStep conn0 (InMsg.abort Option.none) false =
      (conn0, [.reported "read abort", .releasedMsg], .halt Option.none) ∧
    LoopAction.halt Option.none ≠ LoopAction.next :=
  ⟨rfl, by simp⟩

/-- C6 (amended): for bootstrap, call, return, finish, release and
disembargo messages whose body fails to parse, the error is reported,
the buffer is released, the state is unchanged and the receive loop
continues; an abort message whose body fails to parse is also reported
and released, but terminates the receive loop gracefully instead of
continuing. -/
theorem receive_parse_fail_continues (c : Conn) (sf : Bool) :
    receiveStep c (.bootstrap Option.none) sf =
      (c, [.releasedMsg, .reported "read bootstrap"], .next) ∧
    receiveStep c (.call Option.none) sf =
      (c, [.releasedMsg, .reported "read call"], .next) ∧
    receiveStep c (.ret Option.none) sf =
      (c, [.releasedMsg, .reported "read return"], .next) ∧
    receiveStep c (.finish Option.none) sf =
      (c, [.releasedMsg, .reported "read finish"], .next) ∧
    receiveStep c (.release Option.none) sf =
      (c, [.releasedMsg, .reported "read release"], .next) ∧
    receiveStep c (.disembargo Option.none) sf =
      (c, [.releasedMsg, .reported "read disembargo"], .next) ∧
    receiveStep c (.abort Option.none) sf =
      (c, [.reported "read abort", .releasedMsg], .halt Option.none) :=
  ⟨rfl, rfl, rfl, rfl, rfl, rfl, rfl⟩

/-! ### C7: calls whose results destination is not the caller -/

/-- C7: an incoming Call whose sendResultsTo is anything other than
caller is answered with an unimplemented message echoing the call, the
error is reported, the call buffer is released, and handleCall returns
nil with the connection state (in particular the answers table)
untouched; the receive loop continues. -/
theorem handleCall_results_dest_not_caller (c : Conn) (call : CallMsg) (sf : Bool)
    (h : call.sendResultsTo ≠ SendResultsTo.caller) :
    c.handleCall call =
      ⟨c, [.reported "incoming call: results destination is not caller",
           .sentUnimplemented, .releasedMsg], Option.none⟩ ∧
    (c.handleCall call).conn.answers = c.answers ∧
    receiveStep c (.call (some call)) sf =
      (c, [.reported "incoming call: results destination is not caller",
           .sentUnimplemented, .releasedMsg], .next) := by
  have h1 : c.handleCall call =
      ⟨c, [.reported "incoming call: results destination is not caller",
           .sentUnimplemented, .releasedMsg], Option.none⟩ := by
    unfold Conn.handleCall
    simp [h]
  refine ⟨h1, by rw [h1], ?_⟩
  simp [receiveStep, h1, HandlerResult.action]

/-- Witness for handleCall_results_dest_not_caller: a call asking for
results to be sent to yourself. -/
theorem handleCall_results_dest_not_caller_witness :
    (conn0.handleCall ⟨0, .yourself, .importedCap 0, ⟨true, .null, []⟩⟩).err = Option.none ∧
    (conn0.handleCall ⟨0, .yourself, .importedCap 0, ⟨true, .null, []⟩⟩).conn.answers =
      conn0.answers :=
  ⟨by rw [(handleCall_results_dest_not_caller conn0 ⟨0, .yourself, .importedCap 0,
      ⟨true, .null, []⟩⟩ false (by simp)).1],
   (handleCall_results_dest_not_caller conn0 ⟨0, .yourself, .importedCap 0,
      ⟨true, .null, []⟩⟩ false (by simp)).2.1⟩

/-! ### C9: bad Finish messages abort the connection -/

/-- C9: an incoming Finish naming an answer id that is not in the
answers table, or one whose finishReceived flag is already set, makes
handleFinish return a non-nil error with the connection state unchanged
(in particular the answers table in the duplicate case), and the receive
loop halts with that error, which aborts the connection. -/
theorem handleFinish_unknown_or_dup_fails (c : Conn) (id : Nat) (rrc : Bool) (sf : Bool)
    (h : c.answers.lookup id = Option.none ∨
         ∃ a, c.answers.lookup id = some a ∧ a.finishReceived = true) :
    ∃ e, c.handleFinish id rrc = ⟨c, [], some e⟩ ∧
      receiveStep c (.finish (some ⟨id, rrc⟩)) sf = (c, [.releasedMsg], .halt (some e)) := by
  rcases h with h | ⟨a, h, hf⟩
  · refine ⟨"incoming finish: unknown answer ID", ?_, ?_⟩
    · unfold Conn.handleFinish
      rw [h]
    · simp only [receiveStep, HandlerResult.action]
      unfold Conn.handleFinish
      rw [h]
  · refine ⟨"incoming finish: answer ID already received finish", ?_, ?_⟩
    · unfold Conn.handleFinish
      rw [h]
      simp [hf]
    · simp only [receiveStep, HandlerResult.action]
      unfold Conn.handleFinish
      rw [h]
      simp [hf]

/-- Witness for handleFinish_unknown_or_dup_fails: an empty answers
table and finish id 3. -/
theorem handleFinish_unknown_or_dup_fails_witness :
    ∃ e, conn0.handleFinish 3 false = ⟨conn0, [], some e⟩ ∧
      receiveStep conn0 (.finish (some ⟨3, false⟩)) false =
        (conn0, [.releasedMsg], .halt (some e)) :=
  handleFinish_unknown_or_dup_fails conn0 3 false false (Or.inl rfl)

/-! ### C3: a Return racing a local cancel -/

/-- C3: when a Return arrives for a question already flagged finished,
handleReturn consumes the message (no fatal error, buffer released)
without resolving the question promise; the question id is returned to
the allocator only when the finishMsgSend completion signal has fired
and the finishSent flag was set by a successful send, and is never
reclaimed before the signal fires: if the signal is still pending a
waiter is scheduled, and the waiter reclaims the id exactly when the
flag is set. -/
theorem handleReturn_canceled_consumes (c : Conn) (ret : ReturnMsg) (q : Question) (sf : Bool)
    (hq : c.questions.get? ret.answerId = some (some q))
    (hfin : q.finished = true) :
    (c.handleReturn ret sf).err = Option.none ∧
    (∀ qid2 ok, Event.resolvedPromise qid2 ok ∉ (c.handleReturn ret sf).events) ∧
    Event.releasedMsg ∈ (c.handleReturn ret sf).events ∧
    (c.handleReturn ret sf).conn.questionID =
      (if sf && q.finishSent then c.questionID.remove ret.answerId else c.questionID) ∧
    (sf = false →
      Event.scheduledReclaimWaiter ret.answerId ∈ (c.handleReturn ret sf).events ∧
      ∀ flag, (finishMsgSendFired (c.handleReturn ret sf).conn ret.answerId flag).questionID =
        (if flag then c.questionID.remove ret.answerId else c.questionID)) := by
  have hlt : ret.answerId < c.questions.length := by
    rcases List.get?_eq_some.mp hq with ⟨hl, _⟩
    exact hl
  have hget : c.questions.get ⟨ret.answerId, hlt⟩ = some q := by
    rcases List.get?_eq_some.mp hq with ⟨hl, hg⟩
    exact hg
  unfold Conn.handleReturn
  rw [dif_pos hlt, hget]
  simp only [hfin, if_true]
  cases sf with
  | false =>
    simp [finishMsgSendFired]
  | true =>
    cases hfs : q.finishSent with
    | false => simp
    | true => simp

/-- Witness for handleReturn_canceled_consumes: a finished question with
finishSent still unset, signal not yet fired. -/
theorem handleReturn_canceled_consumes_witness :
    (Conn.handleReturn
        { conn0 with questions := [some ⟨true, false, false, []⟩], questionID := ⟨[], 1⟩ }
        ⟨0, .exception "x"⟩ false).err = Option.none ∧
    Event.scheduledReclaimWaiter 0 ∈ (Conn.handleReturn
        { conn0 with questions := [some ⟨true, false, false, []⟩], questionID := ⟨[], 1⟩ }
        ⟨0, .exception "x"⟩ false).events := by
  have h := handleReturn_canceled_consumes
    { conn0 with questions := [some ⟨true, false, false, []⟩], questionID := ⟨[], 1⟩ }
    ⟨0, .exception "x"⟩ ⟨true, false, false, []⟩ false rfl rfl
  exact ⟨h.1, (h.2.2.2.2 rfl).1⟩

/-! ### C8: recvCap error propagation -/

/-- C8 counterexample: a receiverHosted descriptor naming an absent
export makes recvCap return an error, but processing the Return message
carrying it does not fail the connection: the receive loop continues to
the next message (the question is resolved with the parse error and the
error is reported), contradicting the claim that this error fails the
connection. -/
theorem recvCap_missing_export_not_fatal_cex :
    conn8.recvCap (.receiverHosted 0) = .error "receive capability: invalid export" ∧
    receiveStep conn8 (.ret (some ret8)) false =
      ({ conn8 with questions := [Option.none], questionID := ⟨[0], 1⟩ },
       [.reported "incoming return", .resolvedPromise 0 false, .releasedMsg, .sentFinish 0],
       .next) :=
  ⟨rfl, rfl⟩

/-- C8 (amended): recvCap on a receiverHosted descriptor whose export id
is absent from the exports table returns an error, which aborts the
payload walk but does not terminate the connection: handleReturn on a
Return for a live, unfinished question whose payload carries such a
descriptor reports the error, resolves the question with the error, and
returns no fatal error, so the receive loop continues.  recvCap on a
descriptor of unknown kind instead returns an error client together
with a nil error (the error client is not local), and the payload walk
continues with the remaining descriptors. -/
theorem recvCap_error_behavior (c : Conn) (id w : Nat) (ds : List CapDescriptor) (i : Nat)
    (h : c.findExport id = Option.none) :
    c.recvCap (.receiverHosted id) = .error "receive capability: invalid export" ∧
    (∀ cid, recvCaps cid c (.receiverHosted id :: ds) i =
      .error "receive capability: invalid export") ∧
    c.recvCap (.unknown w) = .ok (.errorClient "unknown CapDescriptor type", c) ∧
    (∀ cid, recvCaps cid c (.unknown w :: ds) i =
      match recvCaps cid c ds (i + 1) with
      | .error e => .error e
      | .ok (cls, locs, c2) =>
        .ok (.errorClient "unknown CapDescriptor type" :: cls, locs, c2)) ∧
    (∀ ret sf (q : Question) (content2 : Ptr),
      c.questions.get? ret.answerId = some (some q) → q.finished = false →
      ret.body = .results ⟨false, content2, .receiverHosted id :: ds⟩ →
      (c.handleReturn ret sf).err = Option.none ∧
      Event.reported "incoming return" ∈ (c.handleReturn ret sf).events ∧
      Event.resolvedPromise ret.answerId false ∈ (c.handleReturn ret sf).events) := by
  have hcap : c.recvCap (.receiverHosted id) = .error "receive capability: invalid export" := by
    simp only [Conn.recvCap, h]
  refine ⟨hcap, ?_, rfl, ?_, ?_⟩
  · intro cid
    rw [recvCaps]
    rw [hcap]
  · intro cid
    rw [recvCaps]
    simp only [Conn.recvCap]
    cases hrec : recvCaps cid c ds (i + 1) with
    | error e => simp
    | ok r =>
      obtain ⟨cls, locs, c2⟩ := r
      simp [isLocalClient]
  · intro ret sf q content2 hq hfin hbody
    have hlt : ret.answerId < c.questions.length := (List.get?_eq_some.mp hq).1
    have hget : c.questions.get ⟨ret.answerId, hlt⟩ = some q := (List.get?_eq_some.mp hq).2
    have hcap0 : ({ c with questions := c.questions.set ret.answerId Option.none } : Conn).recvCap
        (.receiverHosted id) = .error "receive capability: invalid export" := by
      simp only [Conn.recvCap]
      rw [show ({ c with questions := c.questions.set ret.answerId Option.none } : Conn).findExport
          id = c.findExport id from rfl, h]
    have hpl : ({ c with questions := c.questions.set ret.answerId Option.none } : Conn).recvPayload
        ⟨false, content2, .receiverHosted id :: ds⟩ =
        .error "receive capability: invalid export" := by
      unfold Conn.recvPayload
      rw [if_neg (by simp)]
      rw [recvCaps]
      rw [hcap0]
    have hpr : ({ c with questions := c.questions.set ret.answerId Option.none } : Conn).parseReturn
        ret q.called =
        (⟨.null, [], [], some "parse return: receive capability: invalid export", true, false⟩,
         { c with questions := c.questions.set ret.answerId Option.none }) := by
      unfold Conn.parseReturn
      rw [hbody]
      simp only []
      rw [hpl]
      rfl
    unfold Conn.handleReturn
    rw [dif_pos hlt, hget]
    simp only []
    rw [if_neg (by simp [hfin])]
    rw [hpr]
    cases hb : q.isBootstrap <;> simp [hb]

/-- Witness for recvCap_error_behavior at the fixture connection (empty
exports table, a live unfinished question 0). -/
theorem recvCap_error_behavior_witness :
    conn8.recvCap (.receiverHosted 0) = .error "receive capability: invalid export" ∧
    conn8.recvCap (.unknown 9) = .ok (.errorClient "unknown CapDescriptor type", conn8) ∧
    (conn8.handleReturn ret8 false).err = Option.none ∧
    Event.reported "incoming return" ∈ (conn8.handleReturn ret8 false).events ∧
    Event.resolvedPromise 0 false ∈ (conn8.handleReturn ret8 false).events := by
  have h := recvCap_error_behavior conn8 0 9 [] 0 rfl
  have h5 := h.2.2.2.2 ret8 false ⟨false, false, false, []⟩ Ptr.null rfl rfl rfl
  exact ⟨h.1, h.2.2.1, h5.1, h5.2.1, h5.2.2⟩

/-! ### C4: senderLoopback disembargo echo -/

/-- The locked block of the senderLoopback branch succeeds exactly on a
promised answer that has sent a Return without an exception and whose
transformed results reach an in-range interface slot, yielding that
capability-table slot. -/
theorem senderLoopbackTargetClient_ok_iff (c : Conn) (aqid : Nat) (xform : List Nat)
    (cl : Client) :
    c.senderLoopbackTargetClient (.promisedAnswer aqid xform) = .ok cl ↔
      ∃ a, c.answers.lookup aqid = some a ∧ a.returnSent = true ∧ a.err = Option.none ∧
        ∃ i, transform a.content xform = .iface i ∧ i < a.capTable.length ∧
          a.capTable.getD i .null = cl := by
  simp only [Conn.senderLoopbackTargetClient]
  cases hl : c.answers.lookup aqid with
  | none => simp
  | some a =>
    simp only [Option.some.injEq]
    cases hrs : a.returnSent with
    | false =>
      simp only [if_pos rfl]
      constructor
      · intro hcontra
        exact absurd hcontra (by simp)
      · rintro ⟨a2, rfl, hr, -⟩
        rw [hrs] at hr
        exact absurd hr (by simp)
    | true =>
      rw [if_neg (by simp [hrs])]
      cases herr : a.err with
      | some e =>
        constructor
        · intro hcontra
          exact absurd hcontra (by simp)
        · rintro ⟨a2, rfl, -, he, -⟩
          rw [herr] at he
          exact absurd he (by simp)
      | none =>
        cases htr : transform a.content xform with
        | null =>
          constructor
          · intro hcontra
            exact absurd hcontra (by simp)
          · rintro ⟨a2, rfl, -, -, i, hi, -⟩
            rw [htr] at hi
            exact absurd hi (by simp)
        | cons hd tl =>
          constructor
          · intro hcontra
            exact absurd hcontra (by simp)
          · rintro ⟨a2, rfl, -, -, i, hi, -⟩
            rw [htr] at hi
            exact absurd hi (by simp)
        | iface i =>
          simp only []
          by_cases hlen : i < a.capTable.length
          · rw [if_pos hlen]
            constructor
            · intro hok
              refine ⟨a, rfl, hrs, herr, i, htr, hlen, ?_⟩
              exact Except.ok.inj hok
            · rintro ⟨a2, rfl, -, -, i2, hi2, -, hcl⟩
              rw [htr] at hi2
              obtain rfl : i = i2 := Ptr.iface.inj hi2
              rw [hcl]
          · rw [if_neg hlen]
            constructor
            · intro hcontra
              exact absurd hcontra (by simp)
            · rintro ⟨a2, rfl, -, -, i2, hi2, hlen2, -⟩
              rw [htr] at hi2
              obtain rfl : i = i2 := Ptr.iface.inj hi2
              exact absurd hlen2 hlen

/-- C4: an incoming senderLoopback Disembargo is echoed as a
receiverLoopback Disembargo bearing the same embargo id and targeting
the underlying import id exactly when the target is a promisedAnswer,
the named answer exists with returnSent set and no exception, the
transform applied to its results reaches a valid interface within the
capability table, and the capability at that slot is an importClient of
this connection; on any violation handleDisembargo returns an error and
sends no receiverLoopback echo. -/
theorem handleDisembargo_senderLoopback_iff (c : Conn) (d : DisembargoMsg) (eid : Nat)
    (hctx : d.ctx = .senderLoopback eid) :
    ((c.handleDisembargo d).err = Option.none ↔
      ∃ aqid xform a i impId,
        d.target = .promisedAnswer aqid xform ∧
        c.answers.lookup aqid = some a ∧
        a.returnSent = true ∧ a.err = Option.none ∧
        transform a.content xform = .iface i ∧
        i < a.capTable.length ∧
        a.capTable.getD i .null = .importOn c.connId impId) ∧
    (∀ aqid xform a i impId,
        d.target = .promisedAnswer aqid xform →
        c.answers.lookup aqid = some a →
        a.returnSent = true → a.err = Option.none →
        transform a.content xform = .iface i →
        i < a.capTable.length →
        a.capTable.getD i .null = .importOn c.connId impId →
        (c.handleDisembargo d).events =
          [.sentDisembargoReceiver eid impId, .releasedMsg, .releasedClient]) ∧
    ((c.handleDisembargo d).err ≠ Option.none →
      ∀ e2 i2, Event.sentDisembargoReceiver e2 i2 ∉ (c.handleDisembargo d).events) := by
  obtain ⟨tgt, ctx⟩ := d
  simp only at hctx
  subst hctx
  cases tgt with
  | unknownTarget w =>
    refine ⟨?_, ?_, ?_⟩
    · simp [Conn.handleDisembargo]
    · intro aqid xform a i impId htgt
      exact absurd htgt (by simp)
    · intro _ e2 i2
      simp [Conn.handleDisembargo]
  | importedCap impCap =>
    refine ⟨?_, ?_, ?_⟩
    · simp only [Conn.handleDisembargo, Conn.senderLoopbackTargetClient]
      constructor
      · intro hcontra
        exact absurd hcontra (by simp)
      · rintro ⟨aqid, xform, a, i, impId, htgt, -⟩
        exact absurd htgt (by simp)
    · intro aqid xform a i impId htgt
      exact absurd htgt (by simp)
    · intro _ e2 i2
      simp [Conn.handleDisembargo, Conn.senderLoopbackTargetClient]
  | promisedAnswer aqid xform =>
    have hmain : c.handleDisembargo ⟨.promisedAnswer aqid xform, .senderLoopback eid⟩ =
        (match c.senderLoopbackTargetClient (.promisedAnswer aqid xform) with
         | .error e => ⟨c, [.releasedMsg], some e⟩
         | .ok client =>
           match client with
           | .importOn conn impId =>
             if conn = c.connId then
               ⟨c, [.sentDisembargoReceiver eid impId, .releasedMsg, .releasedClient],
                Option.none⟩
             else
               ⟨c, [.releasedClient],
                some "incoming disembargo: sender loopback requested on a capability that is not an import"⟩
           | _ =>
             ⟨c, [.releasedClient],
              some "incoming disembargo: sender loopback requested on a capability that is not an import"⟩) := rfl
    rw [hmain]
    cases hslt : c.senderLoopbackTargetClient (.promisedAnswer aqid xform) with
    | error e =>
      refine ⟨?_, ?_, ?_⟩
      · simp only []
        constructor
        · intro hcontra
          exact absurd hcontra (by simp)
        · rintro ⟨aqid2, xform2, a, i, impId, htgt, hl, hrs, herr, htr, hlen, hcl⟩
          obtain ⟨rfl, rfl⟩ : aqid = aqid2 ∧ xform = xform2 := by
            have h1 := MessageTarget.promisedAnswer.inj htgt
            exact ⟨h1.1, h1.2⟩
          have : c.senderLoopbackTargetClient (.promisedAnswer aqid xform) =
              .ok (.importOn c.connId impId) := by
            rw [senderLoopbackTargetClient_ok_iff]
            exact ⟨a, hl, hrs, herr, i, htr, hlen, hcl⟩
          rw [hslt] at this
          exact absurd this (by simp)
      · intro aqid2 xform2 a i impId htgt hl hrs herr htr hlen hcl
        obtain ⟨rfl, rfl⟩ : aqid = aqid2 ∧ xform = xform2 := by
          have h1 := MessageTarget.promisedAnswer.inj htgt
          exact ⟨h1.1, h1.2⟩
        have : c.senderLoopbackTargetClient (.promisedAnswer aqid xform) =
            .ok (.importOn c.connId impId) := by
          rw [senderLoopbackTargetClient_ok_iff]
          exact ⟨a, hl, hrs, herr, i, htr, hlen, hcl⟩
        rw [hslt] at this
        exact absurd this (by simp)
      · intro _ e2 i2
        simp
    | ok client =>
      have hcl := (senderLoopbackTargetClient_ok_iff c aqid xform client).mp hslt
      obtain ⟨a, hl, hrs, herr, i, htr, hlen, hslot⟩ := hcl
      cases client with
      | importOn conn impId =>
        by_cases hconn : conn = c.connId
        · subst hconn
          refine ⟨?_, ?_, ?_⟩
          · constructor
            · intro _
              exact ⟨aqid, xform, a, i, impId, rfl, hl, hrs, herr, htr, hlen, hslot⟩
            · intro _
              simp
          · intro aqid2 xform2 a2 i2 impId2 htgt hl2 hrs2 herr2 htr2 hlen2 hcl2
            obtain ⟨rfl, rfl⟩ : aqid = aqid2 ∧ xform = xform2 := by
              have h1 := MessageTarget.promisedAnswer.inj htgt
              exact ⟨h1.1, h1.2⟩
            rw [hl] at hl2
            obtain rfl : a = a2 := Option.some.inj hl2
            rw [htr] at htr2
            obtain rfl : i = i2 := Ptr.iface.inj htr2
            rw [hslot] at hcl2
            obtain rfl : impId = impId2 := (Client.importOn.inj hcl2).2
            simp
          · intro hcontra
            simp at hcontra
        · refine ⟨?_, ?_, ?_⟩
          · constructor
            · intro hcontra
              exact absurd hcontra (by simp [hconn])
            · rintro ⟨aqid2, xform2, a2, i2, impId2, htgt, hl2, hrs2, herr2, htr2, hlen2, hcl2⟩
              obtain ⟨rfl, rfl⟩ : aqid = aqid2 ∧ xform = xform2 := by
                have h1 := MessageTarget.promisedAnswer.inj htgt
                exact ⟨h1.1, h1.2⟩
              rw [hl] at hl2
              obtain rfl : a = a2 := Option.some.inj hl2
              rw [htr] at htr2
              obtain rfl : i = i2 := Ptr.iface.inj htr2
              rw [hslot] at hcl2
              exact absurd (Client.importOn.inj hcl2).1 hconn
          · intro aqid2 xform2 a2 i2 impId2 htgt hl2 hrs2 herr2 htr2 hlen2 hcl2
            obtain ⟨rfl, rfl⟩ : aqid = aqid2 ∧ xform = xform2 := by
              have h1 := MessageTarget.promisedAnswer.inj htgt
              exact ⟨h1.1, h1.2⟩
            rw [hl] at hl2
            obtain rfl : a = a2 := Option.some.inj hl2
            rw [htr] at htr2
            obtain rfl : i = i2 := Ptr.iface.inj htr2
            rw [hslot] at hcl2
            exact absurd (Client.importOn.inj hcl2).1 hconn
          · intro _ e2 i2
            simp [hconn]
      | null =>
        refine ⟨?_, ?_, ?_⟩
        · constructor
          · intro hcontra
            exact absurd hcontra (by simp)
          · rintro ⟨aqid2, xform2, a2, i2, impId2, htgt, hl2, hrs2, herr2, htr2, hlen2, hcl2⟩
            obtain ⟨rfl, rfl⟩ : aqid = aqid2 ∧ xform = xform2 := by
              have h1 := MessageTarget.promisedAnswer.inj htgt
              exact ⟨h1.1, h1.2⟩
            rw [hl] at hl2
            obtain rfl : a = a2 := Option.some.inj hl2
            rw [htr] at htr2
            obtain rfl : i = i2 := Ptr.iface.inj htr2
            rw [hslot] at hcl2
            exact absurd hcl2 (by simp)
        · intro aqid2 xform2 a2 i2 impId2 htgt hl2 hrs2 herr2 htr2 hlen2 hcl2
          obtain ⟨rfl, rfl⟩ : aqid = aqid2 ∧ xform = xform2 := by
            have h1 := MessageTarget.promisedAnswer.inj htgt
            exact ⟨h1.1, h1.2⟩
          rw [hl] at hl2
          obtain rfl : a = a2 := Option.some.inj hl2
          rw [htr] at htr2
          obtain rfl : i = i2 := Ptr.iface.inj htr2
          rw [hslot] at hcl2
          exact absurd hcl2 (by simp)
        · intro _ e2 i2
          simp
      | pipelineFor q =>
        refine ⟨?_, ?_, ?_⟩
        · constructor
          · intro hcontra
            exact absurd hcontra (by simp)
          · rintro ⟨aqid2, xform2, a2, i2, impId2, htgt, hl2, hrs2, herr2, htr2, hlen2, hcl2⟩
            obtain ⟨rfl, rfl⟩ : aqid = aqid2 ∧ xform = xform2 := by
              have h1 := MessageTarget.promisedAnswer.inj htgt
              exact ⟨h1.1, h1.2⟩
            rw [hl] at hl2
            obtain rfl : a = a2 := Option.some.inj hl2
            rw [htr] at htr2
            obtain rfl : i = i2 := Ptr.iface.inj htr2
            rw [hslot] at hcl2
            exact absurd hcl2 (by simp)
        · intro aqid2 xform2 a2 i2 impId2 htgt hl2 hrs2 herr2 htr2 hlen2 hcl2
          obtain ⟨rfl, rfl⟩ : aqid = aqid2 ∧ xform = xform2 := by
            have h1 := MessageTarget.promisedAnswer.inj htgt
            exact ⟨h1.1, h1.2⟩
          rw [hl] at hl2
          obtain rfl : a = a2 := Option.some.inj hl2
          rw [htr] at htr2
          obtain rfl : i = i2 := Ptr.iface.inj htr2
          rw [hslot] at hcl2
          exact absurd hcl2 (by simp)
        · intro _ e2 i2
          simp
      | errorClient m =>
        refine ⟨?_, ?_, ?_⟩
        · constructor
          · intro hcontra
            exact absurd hcontra (by simp)
          · rintro ⟨aqid2, xform2, a2, i2, impId2, htgt, hl2, hrs2, herr2, htr2, hlen2, hcl2⟩
            obtain ⟨rfl, rfl⟩ : aqid = aqid2 ∧ xform = xform2 := by
              have h1 := MessageTarget.promisedAnswer.inj htgt
              exact ⟨h1.1, h1.2⟩
            rw [hl] at hl2
            obtain rfl : a = a2 := Option.some.inj hl2
            rw [htr] at htr2
            obtain rfl : i = i2 := Ptr.iface.inj htr2
            rw [hslot] at hcl2
            exact absurd hcl2 (by simp)
        · intro aqid2 xform2 a2 i2 impId2 htgt hl2 hrs2 herr2 htr2 hlen2 hcl2
          obtain ⟨rfl, rfl⟩ : aqid = aqid2 ∧ xform = xform2 := by
            have h1 := MessageTarget.promisedAnswer.inj htgt
            exact ⟨h1.1, h1.2⟩
          rw [hl] at hl2
          obtain rfl : a = a2 := Option.some.inj hl2
          rw [htr] at htr2
          obtain rfl : i = i2 := Ptr.iface.inj htr2
          rw [hslot] at hcl2
          exact absurd hcl2 (by simp)
        · intro _ e2 i2
          simp
      | embargoed inner eid2 =>
        refine ⟨?_, ?_, ?_⟩
        · constructor
          · intro hcontra
            exact absurd hcontra (by simp)
          · rintro ⟨aqid2, xform2, a2, i2, impId2, htgt, hl2, hrs2, herr2, htr2, hlen2, hcl2⟩
            obtain ⟨rfl, rfl⟩ : aqid = aqid2 ∧ xform = xform2 := by
              have h1 := MessageTarget.promisedAnswer.inj htgt
              exact ⟨h1.1, h1.2⟩
            rw [hl] at hl2
            obtain rfl : a = a2 := Option.some.inj hl2
            rw [htr] at htr2
            obtain rfl : i = i2 := Ptr.iface.inj htr2
            rw [hslot] at hcl2
            exact absurd hcl2 (by simp)
        · intro aqid2 xform2 a2 i2 impId2 htgt hl2 hrs2 herr2 htr2 hlen2 hcl2
          obtain ⟨rfl, rfl⟩ : aqid = aqid2 ∧ xform = xform2 := by
            have h1 := MessageTarget.promisedAnswer.inj htgt
            exact ⟨h1.1, h1.2⟩
          rw [hl] at hl2
          obtain rfl : a = a2 := Option.some.inj hl2
          rw [htr] at htr2
          obtain rfl : i = i2 := Ptr.iface.inj htr2
          rw [hslot] at hcl2
          exact absurd hcl2 (by simp)
        · intro _ e2 i2
          simp
      | server =>
        refine ⟨?_, ?_, ?_⟩
        · constructor
          · intro hcontra
            exact absurd hcontra (by simp)
          · rintro ⟨aqid2, xform2, a2, i2, impId2, htgt, hl2, hrs2, herr2, htr2, hlen2, hcl2⟩
            obtain ⟨rfl, rfl⟩ : aqid = aqid2 ∧ xform = xform2 := by
              have h1 := MessageTarget.promisedAnswer.inj htgt
              exact ⟨h1.1, h1.2⟩
            rw [hl] at hl2
            obtain rfl : a = a2 := Option.some.inj hl2
            rw [htr] at htr2
            obtain rfl : i = i2 := Ptr.iface.inj htr2
            rw [hslot] at hcl2
            exact absurd hcl2 (by simp)
        · intro aqid2 xform2 a2 i2 impId2 htgt hl2 hrs2 herr2 htr2 hlen2 hcl2
          obtain ⟨rfl, rfl⟩ : aqid = aqid2 ∧ xform = xform2 := by
            have h1 := MessageTarget.promisedAnswer.inj htgt
            exact ⟨h1.1, h1.2⟩
          rw [hl] at hl2
          obtain rfl : a = a2 := Option.some.inj hl2
          rw [htr] at htr2
          obtain rfl : i = i2 := Ptr.iface.inj htr2
          rw [hslot] at hcl2
          exact absurd hcl2 (by simp)
        · intro _ e2 i2
          simp

/-- conn0 with answer 2 resolved: Return sent, no exception, results
pointing at capability slot 0, which holds an import of this connection
with import id 5. -/
def conn4 : Conn :=
  { conn0 with answers :=
      [(2, ⟨true, false, false, true, Option.none, .iface 0, [.importOn 0 5], false⟩)] }

/-- Witness for handleDisembargo_senderLoopback_iff: a senderLoopback
Disembargo with embargo id 7 against answer 2 echoes a receiverLoopback
with id 7 targeting import 5. -/
theorem handleDisembargo_senderLoopback_iff_witness :
    (conn4.handleDisembargo ⟨.promisedAnswer 2 [], .senderLoopback 7⟩).err = Option.none ∧
    (conn4.handleDisembargo ⟨.promisedAnswer 2 [], .senderLoopback 7⟩).events =
      [.sentDisembargoReceiver 7 5, .releasedMsg, .releasedClient] := by
  have h := handleDisembargo_senderLoopback_iff conn4
    ⟨.promisedAnswer 2 [], .senderLoopback 7⟩ 7 rfl
  exact ⟨h.1.mpr ⟨2, [], _, 0, 5, rfl, rfl, rfl, rfl, rfl, by decide, rfl⟩,
         h.2.1 2 [] _ 0 5 rfl rfl rfl rfl rfl (by decide) rfl⟩

end Rpc

namespace Server

/-! ### C10: binary-search dispatch correctness -/

theorem methodLe_iff (a b : Method) :
    methodLe a b = true ↔
      a.interfaceId < b.interfaceId ∨
        (a.interfaceId = b.interfaceId ∧ a.methodId ≤ b.methodId) := by
  simp [methodLe]

theorem methodLe_trans (a b c : Method)
    (h1 : methodLe a b = true) (h2 : methodLe b c = true) : methodLe a c = true := by
  rw [methodLe_iff] at *
  omega

theorem methodLe_total (a b : Method) : (methodLe a b || methodLe b a) = true := by
  rw [Bool.or_eq_true, methodLe_iff, methodLe_iff]
  omega

/-- Correctness of sort.Search on an interval, for a predicate monotone
below n: the result is the least index of the interval where the
predicate holds (the upper bound when it never does). -/
theorem sortSearchAux_spec (f : Nat → Bool) (n : Nat)
    (hmono : ∀ k l, k ≤ l → l < n → f l = false → f k = false) :
    ∀ d i j, j - i ≤ d → i ≤ j → j ≤ n →
      i ≤ sortSearchAux f i j ∧ sortSearchAux f i j ≤ j ∧
      (∀ k, i ≤ k → k < sortSearchAux f i j → f k = false) ∧
      (sortSearchAux f i j < j → f (sortSearchAux f i j) = true) := by
  intro d
  induction d with
  | zero =>
    intro i j hd hij hjn
    have heq : ¬ i < j := by omega
    rw [sortSearchAux, dif_neg heq]
    exact ⟨le_refl i, hij, fun k hik hki => absurd (lt_of_le_of_lt hik hki) (lt_irrefl i),
      fun h => absurd h heq⟩
  | succ d ih =>
    intro i j hd hij hjn
    rw [sortSearchAux]
    by_cases hlt : i < j
    · rw [dif_pos hlt]
      have hmi : i ≤ (i + j) / 2 := by omega
      have hmj : (i + j) / 2 < j := by omega
      cases hf : f ((i + j) / 2) with
      | true =>
        rw [if_pos hf]
        obtain ⟨h1, h2, h3, h4⟩ := ih i ((i + j) / 2) (by omega) hmi (by omega)
        refine ⟨h1, by omega, h3, ?_⟩
        intro hlt2
        rcases Nat.lt_or_ge (sortSearchAux f i ((i + j) / 2)) ((i + j) / 2) with hc | hc
        · exact h4 hc
        · have : sortSearchAux f i ((i + j) / 2) = (i + j) / 2 := by omega
          rw [this]
          exact hf
      | false =>
        rw [if_neg (by simp [hf])]
        obtain ⟨h1, h2, h3, h4⟩ := ih ((i + j) / 2 + 1) j (by omega) (by omega) hjn
        refine ⟨by omega, h2, ?_, h4⟩
        intro k hik hkr
        rcases Nat.lt_or_ge ((i + j) / 2) k with hc | hc
        · exact h3 k (by omega) hkr
        · exact hmono k ((i + j) / 2) hc (by omega) hf
    · rw [dif_neg hlt]
      exact ⟨le_refl i, hij, fun k hik hki => absurd (lt_of_le_of_lt hik hki) (lt_irrefl i),
        fun h => absurd h hlt⟩

/-- The predicate of find, read off at an in-range index. -/
theorem findPred_true_iff (sm : List Method) (iid mid i : Nat) (h : i < sm.length) :
    findPred sm iid mid i = true ↔
      iid < sm[i].interfaceId ∨
        (iid = sm[i].interfaceId ∧ mid ≤ sm[i].methodId) := by
  simp only [findPred, List.getD_eq_getElem sm ⟨0, 0, 0⟩ h]
  by_cases hi : sm[i].interfaceId = iid
  · rw [if_neg (by simp [hi])]
    rw [hi]
    simp
  · rw [if_pos (by simp [hi])]
    simp only [decide_eq_true_eq]
    omega

/-- C10: for every method list, dispatch through the table that
server.New builds is correct: find returns a method whose InterfaceID
and MethodID both equal the requested ids (and which comes from the
original list) whenever some method with those ids is present, and
returns none when no such method is present. -/
theorem find_after_new (methods : List Method) (iid mid : Nat) :
    (∀ m, find (new methods) iid mid = some m →
       m.interfaceId = iid ∧ m.methodId = mid ∧ m ∈ methods) ∧
    ((∃ m ∈ methods, m.interfaceId = iid ∧ m.methodId = mid) →
       ∃ m, find (new methods) iid mid = some m) := by
  have hsort : (new methods).Pairwise (fun a b => methodLe a b = true) :=
    List.sorted_mergeSort methodLe_trans methodLe_total methods
  have hmono : ∀ k l, k ≤ l → l < (new methods).length →
      findPred (new methods) iid mid l = false → findPred (new methods) iid mid k = false := by
    intro k l hkl hln hfl
    rcases Nat.eq_or_lt_of_le hkl with rfl | hkl2
    · exact hfl
    · have hkn : k < (new methods).length := by omega
      have hle : methodLe (new methods)[k] (new methods)[l] = true := by
        have := List.pairwise_iff_get.mp hsort ⟨k, hkn⟩ ⟨l, hln⟩ hkl2
        simpa [List.get_eq_getElem] using this
      rw [methodLe_iff] at hle
      rw [Bool.eq_false_iff, Ne, findPred_true_iff _ _ _ _ hln] at hfl
      rw [Bool.eq_false_iff, Ne, findPred_true_iff _ _ _ _ hkn]
      omega
  obtain ⟨hr1, hr2, hr3, hr4⟩ := sortSearchAux_spec (findPred (new methods) iid mid)
    (new methods).length hmono (new methods).length 0 (new methods).length
    (by omega) (by omega) (le_refl _)
  constructor
  · intro m hfind
    unfold find at hfind
    by_cases hlen : sortSearchAux (findPred (new methods) iid mid) 0 (new methods).length <
        (new methods).length
    · rw [if_pos hlen] at hfind
      by_cases hkey : ((new methods).getD (sortSearchAux (findPred (new methods) iid mid) 0
            (new methods).length) ⟨0, 0, 0⟩).interfaceId ≠ iid ∨
          ((new methods).getD (sortSearchAux (findPred (new methods) iid mid) 0
            (new methods).length) ⟨0, 0, 0⟩).methodId ≠ mid
      · rw [if_pos hkey] at hfind
        exact absurd hfind (by simp)
      · rw [if_neg hkey] at hfind
        push_neg at hkey
        obtain rfl : (new methods).getD (sortSearchAux (findPred (new methods) iid mid) 0
            (new methods).length) ⟨0, 0, 0⟩ = m := Option.some.inj hfind
        refine ⟨hkey.1, hkey.2, ?_⟩
        rw [List.getD_eq_getElem _ _ hlen]
        exact List.mem_mergeSort.mp (List.getElem_mem hlen)
    · rw [if_neg hlen] at hfind
      exact absurd hfind (by simp)
  · rintro ⟨m, hmem, hiid, hmid⟩
    have hmem2 : m ∈ new methods := List.mem_mergeSort.mpr hmem
    obtain ⟨⟨j, hj⟩, hget⟩ := List.mem_iff_get.mp hmem2
    have hfj : findPred (new methods) iid mid j = true := by
      rw [findPred_true_iff _ _ _ _ hj]
      right
      rw [List.get_eq_getElem] at hget
      rw [hget, hiid, hmid]
      exact ⟨rfl, le_refl _⟩
    have hrj : sortSearchAux (findPred (new methods) iid mid) 0 (new methods).length ≤ j := by
      by_contra hc
      rw [hr3 j (by omega) (by omega)] at hfj
      exact absurd hfj (by simp)
    have hrlen : sortSearchAux (findPred (new methods) iid mid) 0 (new methods).length <
        (new methods).length := by omega
    have hfr := hr4 hrlen
    rw [findPred_true_iff _ _ _ _ hrlen] at hfr
    rw [← List.getD_eq_getElem (new methods) ⟨0, 0, 0⟩ hrlen] at hfr
    have hgetD : (new methods).getD j ⟨0, 0, 0⟩ = m := by
      rw [List.getD_eq_getElem _ _ hj]
      exact hget
    have hkey : ((new methods).getD (sortSearchAux (findPred (new methods) iid mid) 0
          (new methods).length) ⟨0, 0, 0⟩).interfaceId = iid ∧
        ((new methods).getD (sortSearchAux (findPred (new methods) iid mid) 0
          (new methods).length) ⟨0, 0, 0⟩).methodId = mid := by
      rcases Nat.eq_or_lt_of_le hrj with heq | hlt2
      · rw [heq, hgetD, hiid, hmid]
        exact ⟨rfl, rfl⟩
      · have hle : methodLe
            ((new methods).getD (sortSearchAux (findPred (new methods) iid mid) 0
              (new methods).length) ⟨0, 0, 0⟩)
            ((new methods).getD j ⟨0, 0, 0⟩) = true := by
          rw [List.getD_eq_getElem _ _ hrlen, List.getD_eq_getElem _ _ hj]
          have := List.pairwise_iff_get.mp hsort ⟨_, hrlen⟩ ⟨j, hj⟩ hlt2
          simpa [List.get_eq_getElem] using this
        rw [methodLe_iff] at hle
        rw [hgetD, hiid, hmid] at hle
        omega
    refine ⟨(new methods).getD (sortSearchAux (findPred (new methods) iid mid) 0
        (new methods).length) ⟨0, 0, 0⟩, ?_⟩
    unfold find
    rw [if_pos hrlen, if_neg ?_]
    push_neg
    exact ⟨hkey.1, hkey.2⟩

/-- Witness for find_after_new: looking up (3, 1) in a three-method
table finds the matching method. -/
theorem find_after_new_witness :
    ∃ m, find (new [⟨3, 4, 10⟩, ⟨1, 2, 20⟩, ⟨3, 1, 30⟩]) 3 1 = some m :=
  (find_after_new [⟨3, 4, 10⟩, ⟨1, 2, 20⟩, ⟨3, 1, 30⟩] 3 1).2
    ⟨⟨3, 1, 30⟩, by decide, rfl, rfl⟩

end Server

namespace Rpc

/-! ### C1: embargo installation on incoming Returns

The embargo loop of parseReturn is verified through an invariant on its
accumulator, relative to the capability table and local set produced by
recvPayload and to the embargo id allocator at entry. -/

/-- List.contains is List.elem, so membership transfers. -/
theorem contains_iff_mem (l : List Nat) (a : Nat) : l.contains a = true ↔ a ∈ l :=
  List.elem_iff

theorem IdGen.alloc_fresh (g : IdGen) (h : g.WF) :
    ¬ g.inUse (g.alloc).1 ∧ (g.alloc).2.inUse (g.alloc).1 ∧ (g.alloc).2.WF ∧
    (∀ j, g.inUse j → (g.alloc).2.inUse j) := by
  obtain ⟨free, next⟩ := g
  obtain ⟨hb, hnd⟩ := h
  cases free with
  | nil =>
    refine ⟨?_, ?_, ?_, ?_⟩
    · simp [IdGen.alloc, IdGen.inUse]
    · simp [IdGen.alloc, IdGen.inUse]
    · simp [IdGen.alloc, IdGen.WF]
    · intro j hj
      obtain ⟨hj1, hj2⟩ := hj
      exact ⟨by simpa using Nat.lt_succ_of_lt hj1, hj2⟩
  | cons x xs =>
    refine ⟨?_, ?_, ?_, ?_⟩
    · simp [IdGen.alloc, IdGen.inUse]
    · exact ⟨hb x (by simp), (List.nodup_cons.mp hnd).1⟩
    · exact ⟨fun y hy => hb y (List.mem_cons_of_mem x hy), (List.nodup_cons.mp hnd).2⟩
    · intro j hj
      obtain ⟨hj1, hj2⟩ := hj
      exact ⟨hj1, fun hc => hj2 (List.mem_cons_of_mem x hc)⟩

/-- The invariant of the embargo loop: the capability table differs from
the recvPayload table exactly at the embargoed indices, each embargoed
index is in range and local and carries a wrapper whose embargo id names
exactly one scheduled disembargo, all scheduled disembargoes carry the
question id and a called transform reaching their embargoed index, their
ids are fresh relative to the entry allocator and pairwise distinct, and
their target indices are pairwise distinct. -/
def EmInv (qid : Nat) (content : Ptr) (locals : List Nat) (mtab0 : List Client)
    (g0 : IdGen) (calledAll : List (List Nat)) (acc : EmLoop) : Prop :=
  acc.mtab.length = mtab0.length ∧
  acc.conn.embargoID.WF ∧
  (∀ j, g0.inUse j → acc.conn.embargoID.inUse j) ∧
  (∀ i, i ∉ acc.embargoCaps → acc.mtab[i]? = mtab0[i]?) ∧
  (∀ i ∈ acc.embargoCaps, i < mtab0.length ∧ locals.contains i = true ∧
     ∃ e, acc.mtab[i]? = some (.embargoed (mtab0.getD i .null) e) ∧
       ∃ d ∈ acc.disembargoes, d.id = e ∧ d.question = qid ∧
         reachIdx content d.xform = some i ∧ d.xform ∈ calledAll) ∧
  (∀ d ∈ acc.disembargoes, d.question = qid ∧ d.xform ∈ calledAll ∧
     (∃ i, reachIdx content d.xform = some i ∧ i ∈ acc.embargoCaps) ∧
     acc.conn.embargoID.inUse d.id ∧ ¬ g0.inUse d.id) ∧
  (acc.disembargoes.map SenderLoopback.id).Nodup ∧
  List.Pairwise (fun d1 d2 => reachIdx content d1.xform ≠ reachIdx content d2.xform)
    acc.disembargoes

theorem embargoStep_inv (qid : Nat) (content : Ptr) (locals : List Nat)
    (mtab0 : List Client) (g0 : IdGen) (calledAll : List (List Nat))
    (acc : EmLoop) (x : List Nat)
    (hx : x ∈ calledAll)
    (hinv : EmInv qid content locals mtab0 g0 calledAll acc) :
    EmInv qid content locals mtab0 g0 calledAll (embargoStep qid content locals acc x) ∧
    (∀ i, i ∈ (embargoStep qid content locals acc x).embargoCaps ↔
      i ∈ acc.embargoCaps ∨
        (i < mtab0.length ∧ locals.contains i = true ∧ reachIdx content x = some i)) := by
  obtain ⟨hlen, hwf, hmonog, hsame, hcaps, hdis, hnodup, hpair⟩ := hinv
  cases htr : transform content x with
  | null =>
    have hstep : embargoStep qid content locals acc x = acc := by
      unfold embargoStep
      rw [htr]
    rw [hstep]
    refine ⟨⟨hlen, hwf, hmonog, hsame, hcaps, hdis, hnodup, hpair⟩, ?_⟩
    intro i
    simp [reachIdx, htr]
  | cons hd tl =>
    have hstep : embargoStep qid content locals acc x = acc := by
      unfold embargoStep
      rw [htr]
    rw [hstep]
    refine ⟨⟨hlen, hwf, hmonog, hsame, hcaps, hdis, hnodup, hpair⟩, ?_⟩
    intro i
    simp [reachIdx, htr]
  | iface i0 =>
    have hreach : reachIdx content x = some i0 := by
      simp [reachIdx, htr]
    by_cases hg : (decide (i0 < acc.mtab.length) && locals.contains i0 &&
        !acc.embargoCaps.contains i0) = true
    · have hstep : embargoStep qid content locals acc x =
          { conn := (acc.conn.embargo (acc.mtab.getD i0 .null)).2.2
            mtab := acc.mtab.set i0 (acc.conn.embargo (acc.mtab.getD i0 .null)).2.1
            embargoCaps := i0 :: acc.embargoCaps
            disembargoes := acc.disembargoes ++
              [⟨(acc.conn.embargo (acc.mtab.getD i0 .null)).1, qid, x⟩] } := by
        unfold embargoStep
        rw [htr]
        simp only []
        rw [if_pos hg]
      obtain ⟨hg1, hg2, hg3⟩ : i0 < acc.mtab.length ∧ locals.contains i0 = true ∧
          i0 ∉ acc.embargoCaps := by
        simp only [Bool.and_eq_true, Bool.not_eq_true', decide_eq_true_eq] at hg
        refine ⟨hg.1.1, hg.1.2, ?_⟩
        intro hc
        rw [← contains_iff_mem] at hc
        rw [hc] at hg
        exact absurd hg.2 (by simp)
      have hg1m : i0 < mtab0.length := hlen ▸ hg1
      obtain ⟨hfresh, hnew, hwf2, hmono2⟩ := IdGen.alloc_fresh acc.conn.embargoID hwf
      have hembeq : (acc.conn.embargo (acc.mtab.getD i0 .null)).1 =
          (acc.conn.embargoID.alloc).1 := rfl
      have hembcl : (acc.conn.embargo (acc.mtab.getD i0 .null)).2.1 =
          .embargoed (acc.mtab.getD i0 .null) (acc.conn.embargoID.alloc).1 := rfl
      have hembid : ((acc.conn.embargo (acc.mtab.getD i0 .null)).2.2).embargoID =
          (acc.conn.embargoID.alloc).2 := rfl
      have hgd : acc.mtab.getD i0 .null = mtab0.getD i0 .null := by
        rw [List.getD_eq_getElem?_getD, List.getD_eq_getElem?_getD, hsame i0 hg3]
      rw [hstep]
      refine ⟨⟨?_, ?_, ?_, ?_, ?_, ?_, ?_, ?_⟩, ?_⟩
      · simpa using hlen
      · rw [hembid]
        exact hwf2
      · intro j hj
        rw [hembid]
        exact hmono2 j (hmonog j hj)
      · intro i hi
        simp only [List.mem_cons, not_or] at hi
        simp only []
        rw [List.getElem?_set_ne (Ne.symm hi.1)]
        exact hsame i hi.2
      · intro i hi
        rcases List.mem_cons.mp hi with rfl | hi2
        · refine ⟨hg1m, hg2, (acc.conn.embargoID.alloc).1, ?_, ?_⟩
          · simp only []
            rw [List.getElem?_set, if_pos rfl, if_pos hg1, hembcl, hgd]
          · refine ⟨⟨(acc.conn.embargoID.alloc).1, qid, x⟩, ?_, rfl, rfl, hreach, hx⟩
            exact List.mem_append_right _ (List.mem_singleton.mpr rfl)
        · obtain ⟨hb1, hb2, e, he, d, hd1, hd2, hd3, hd4, hd5⟩ := hcaps i hi2
          refine ⟨hb1, hb2, e, ?_, d, List.mem_append_left _ hd1, hd2, hd3, hd4, hd5⟩
          simp only []
          rw [List.getElem?_set_ne]
          · exact he
          · intro hc
            exact hg3 (hc ▸ hi2)
      · intro d hd0
        rcases List.mem_append.mp hd0 with hd1 | hd1
        · obtain ⟨hq, hcx, ⟨i, hri, hic⟩, hiu, hg0⟩ := hdis d hd1
          refine ⟨hq, hcx, ⟨i, hri, List.mem_cons_of_mem _ hic⟩, ?_, hg0⟩
          rw [hembid]
          exact hmono2 _ hiu
        · rcases List.mem_singleton.mp hd1 with rfl
          refine ⟨rfl, hx, ⟨i0, hreach, List.mem_cons_self _ _⟩, ?_, ?_⟩
          · rw [hembid, hembeq]
            exact hnew
          · rw [hembeq]
            intro hc
            exact hfresh (hmonog _ hc)
      · rw [List.map_append, List.nodup_append]
        refine ⟨hnodup, by simp, ?_⟩
        intro a ha
        simp only [List.map_cons, List.map_nil, List.mem_singleton]
        intro hc
        obtain ⟨d, hd1, hd2⟩ := List.mem_map.mp ha
        have hiu := (hdis d hd1).2.2.2.1
        rw [hd2, hc, hembeq] at hiu
        exact hfresh hiu
      · rw [List.pairwise_append]
        refine ⟨hpair, by simp, ?_⟩
        intro d1 hd1 d2 hd2
        rcases List.mem_singleton.mp hd2 with rfl
        obtain ⟨-, -, ⟨i, hri, hic⟩, -, -⟩ := hdis d1 hd1
        simp only []
        rw [hri, hreach]
        intro hc
        exact hg3 ((Option.some.inj hc) ▸ hic)
      · intro i
        simp only [List.mem_cons]
        constructor
        · rintro (rfl | hi2)
          · exact Or.inr ⟨hg1m, hg2, hreach⟩
          · exact Or.inl hi2
        · rintro (hi2 | ⟨-, -, hr⟩)
          · exact Or.inr hi2
          · rw [hreach] at hr
            exact Or.inl (Option.some.inj hr).symm
    · have hstep : embargoStep qid content locals acc x = acc := by
        unfold embargoStep
        rw [htr]
        simp only []
        rw [if_neg hg]
      rw [hstep]
      refine ⟨⟨hlen, hwf, hmonog, hsame, hcaps, hdis, hnodup, hpair⟩, ?_⟩
      intro i
      constructor
      · exact Or.inl
      · rintro (hi2 | ⟨hb, hc, hr⟩)
        · exact hi2
        · rw [hreach] at hr
          obtain rfl : i0 = i := Option.some.inj hr
          simp only [Bool.and_eq_true, Bool.not_eq_true', decide_eq_true_eq, not_and] at hg
          have h2 := hg ⟨hlen ▸ hb, hc⟩
          rw [Bool.not_eq_false] at h2
          rw [← contains_iff_mem]
          exact h2

theorem embargoLoop_inv (qid : Nat) (content : Ptr) (locals : List Nat)
    (mtab0 : List Client) (g0 : IdGen) (calledAll : List (List Nat)) :
    ∀ (xs : List (List Nat)) (acc : EmLoop), (∀ x ∈ xs, x ∈ calledAll) →
      EmInv qid content locals mtab0 g0 calledAll acc →
      EmInv qid content locals mtab0 g0 calledAll
        (xs.foldl (embargoStep qid content locals) acc) ∧
      (∀ i, i ∈ (xs.foldl (embargoStep qid content locals) acc).embargoCaps ↔
        i ∈ acc.embargoCaps ∨
          (i < mtab0.length ∧ locals.contains i = true ∧
            ∃ x ∈ xs, reachIdx content x = some i)) := by
  intro xs
  induction xs with
  | nil =>
    intro acc hsub hinv
    refine ⟨hinv, ?_⟩
    intro i
    simp
  | cons x xs ih =>
    intro acc hsub hinv
    obtain ⟨h1, h2⟩ := embargoStep_inv qid content locals mtab0 g0 calledAll acc x
      (hsub x (by simp)) hinv
    obtain ⟨h3, h4⟩ := ih (embargoStep qid content locals acc x)
      (fun y hy => hsub y (by simp [hy])) h1
    rw [List.foldl_cons]
    refine ⟨h3, ?_⟩
    intro i
    rw [h4 i, h2 i]
    simp only [List.mem_cons, exists_eq_or_imp]
    tauto

theorem recvCap_preserves (c : Conn) (d : CapDescriptor) (cl : Client) (c1 : Conn)
    (h : c.recvCap d = .ok (cl, c1)) :
    c1.embargoID = c.embargoID ∧ c1.connId = c.connId := by
  cases d with
  | none =>
    obtain ⟨-, rfl⟩ := Prod.mk.inj (Except.ok.inj h)
    exact ⟨rfl, rfl⟩
  | senderHosted id =>
    unfold Conn.recvCap Conn.addImport at h
    simp only [] at h
    cases hl : c.imports.lookup id <;> rw [hl] at h <;>
      obtain ⟨-, rfl⟩ := Prod.mk.inj (Except.ok.inj h) <;> exact ⟨rfl, rfl⟩
  | senderPromise id =>
    unfold Conn.recvCap Conn.addImport at h
    simp only [] at h
    cases hl : c.imports.lookup id <;> rw [hl] at h <;>
      obtain ⟨-, rfl⟩ := Prod.mk.inj (Except.ok.inj h) <;> exact ⟨rfl, rfl⟩
  | receiverHosted id =>
    unfold Conn.recvCap at h
    simp only [] at h
    cases hl : c.findExport id <;> rw [hl] at h
    · exact absurd h (by simp)
    · obtain ⟨-, rfl⟩ := Prod.mk.inj (Except.ok.inj h)
      exact ⟨rfl, rfl⟩
  | receiverAnswer qid xform =>
    unfold Conn.recvCap at h
    simp only [] at h
    cases hl : c.answers.lookup qid <;> rw [hl] at h
    · exact absurd h (by simp)
    · obtain ⟨-, rfl⟩ := Prod.mk.inj (Except.ok.inj h)
      exact ⟨rfl, rfl⟩
  | unknown w =>
    obtain ⟨-, rfl⟩ := Prod.mk.inj (Except.ok.inj h)
    exact ⟨rfl, rfl⟩

theorem recvCaps_preserves (cid : Nat) :
    ∀ (ds : List CapDescriptor) (c : Conn) (i : Nat) cls locs (c2 : Conn),
      recvCaps cid c ds i = .ok (cls, locs, c2) →
      c2.embargoID = c.embargoID ∧ c2.connId = c.connId := by
  intro ds
  induction ds with
  | nil =>
    intro c i cls locs c2 h
    unfold recvCaps at h
    obtain ⟨-, -, rfl⟩ : cls = [] ∧ locs = [] ∧ c = c2 := by
      have h2 := Except.ok.inj h
      exact ⟨(Prod.mk.inj h2).1.symm ▸ rfl, ((Prod.mk.inj (Prod.mk.inj h2).2).1).symm ▸ rfl,
        (Prod.mk.inj (Prod.mk.inj h2).2).2⟩
    exact ⟨rfl, rfl⟩
  | cons d ds ih =>
    intro c i cls locs c2 h
    rw [recvCaps] at h
    cases hc : c.recvCap d with
    | error e =>
      rw [hc] at h
      exact absurd h (by simp)
    | ok r =>
      obtain ⟨cl, c1⟩ := r
      rw [hc] at h
      simp only [] at h
      cases hr : recvCaps cid c1 ds (i + 1) with
      | error e =>
        rw [hr] at h
        exact absurd h (by simp)
      | ok r2 =>
        obtain ⟨cls2, locs2, c3⟩ := r2
        rw [hr] at h
        obtain ⟨h1, h2⟩ := recvCap_preserves c d cl c1 hc
        obtain ⟨h3, h4⟩ := ih c1 (i + 1) cls2 locs2 c3 hr
        obtain rfl : c3 = c2 := by
          have h5 := Except.ok.inj h
          exact (Prod.mk.inj (Prod.mk.inj h5).2).2
        exact ⟨h3.trans h1, h4.trans h2⟩

theorem recvPayload_preserves (c : Conn) (pl : Payld) (res : RecvPayloadRes) (c1 : Conn)
    (h : c.recvPayload pl = .ok (res, c1)) :
    c1.embargoID = c.embargoID ∧ c1.connId = c.connId := by
  unfold Conn.recvPayload at h
  by_cases hn : pl.isNull
  · rw [if_pos hn] at h
    obtain ⟨-, rfl⟩ := Prod.mk.inj (Except.ok.inj h)
    exact ⟨rfl, rfl⟩
  · rw [if_neg hn] at h
    cases hr : recvCaps c.connId c pl.capDescs 0 with
    | error e =>
      rw [hr] at h
      exact absurd h (by simp)
    | ok r =>
      obtain ⟨mtab, locals, c2⟩ := r
      rw [hr] at h
      obtain rfl : c2 = c1 := (Prod.mk.inj (Except.ok.inj h)).2
      exact recvCaps_preserves c.connId pl.capDescs c 0 mtab locals c2 hr

/-- C1: for an incoming Return carrying results, every pipeline-transform
path in the question called set whose transform reaches a valid interface
at an in-range capability-table index classified local and not already
embargoed causes parseReturn to replace that table entry with an
embargoing wrapper carrying a freshly allocated embargo id, and to
schedule exactly one senderLoopback Disembargo naming that id, the
question id, and a called transform path reaching that index; entries at
all other indices are unchanged, the scheduled ids are pairwise distinct
and fresh relative to the embargo allocator, and each capability-table
index is embargoed at most once even when several called paths reach
it. -/
theorem parseReturn_installs_embargoes (c : Conn) (ret : ReturnMsg) (pl : Payld)
    (called : List (List Nat)) (res : RecvPayloadRes) (c1 : Conn)
    (hwf : c.embargoID.WF)
    (hbody : ret.body = .results pl)
    (hrecv : c.recvPayload pl = .ok (res, c1)) :
    (c.parseReturn ret called).1.err = Option.none ∧
    (c.parseReturn ret called).1.result = res.content ∧
    (c.parseReturn ret called).1.capTable.length = res.mtab.length ∧
    (∀ i, i < res.mtab.length → res.locals.contains i = true →
      (∃ x ∈ called, reachIdx res.content x = some i) →
      ∃ e, ((c.parseReturn ret called).1.capTable)[i]? =
          some (.embargoed (res.mtab.getD i .null) e) ∧
        ((c.parseReturn ret called).1.disembargoes.map SenderLoopback.id).count e = 1 ∧
        ∃ d ∈ (c.parseReturn ret called).1.disembargoes, d.id = e ∧
          d.question = ret.answerId ∧ reachIdx res.content d.xform = some i ∧
          d.xform ∈ called) ∧
    (∀ i, ¬(i < res.mtab.length ∧ res.locals.contains i = true ∧
        ∃ x ∈ called, reachIdx res.content x = some i) →
      ((c.parseReturn ret called).1.capTable)[i]? = res.mtab[i]?) ∧
    ((c.parseReturn ret called).1.disembargoes.map SenderLoopback.id).Nodup ∧
    (∀ d ∈ (c.parseReturn ret called).1.disembargoes, ¬ c.embargoID.inUse d.id ∧
      d.question = ret.answerId ∧ d.xform ∈ called) ∧
    List.Pairwise (fun d1 d2 => reachIdx res.content d1.xform ≠ reachIdx res.content d2.xform)
      (c.parseReturn ret called).1.disembargoes := by
  obtain ⟨he, hcid⟩ := recvPayload_preserves c pl res c1 hrecv
  have hpr : c.parseReturn ret called =
      (⟨res.content,
        (called.foldl (embargoStep ret.answerId res.content res.locals) ⟨c1, res.mtab, [], []⟩).disembargoes,
        (called.foldl (embargoStep ret.answerId res.content res.locals) ⟨c1, res.mtab, [], []⟩).mtab,
        Option.none, false, false⟩,
       (called.foldl (embargoStep ret.answerId res.content res.locals) ⟨c1, res.mtab, [], []⟩).conn) := by
    unfold Conn.parseReturn
    rw [hbody]
    simp only []
    rw [hrecv]
  have hinv0 : EmInv ret.answerId res.content res.locals res.mtab c.embargoID called
      ⟨c1, res.mtab, [], []⟩ := by
    refine ⟨rfl, ?_, ?_, fun i _ => rfl, ?_, ?_, ?_, ?_⟩
    · rw [he]
      exact hwf
    · intro j hj
      rw [he]
      exact hj
    · intro i hi
      exact absurd hi (List.not_mem_nil i)
    · intro d hd
      exact absurd hd (List.not_mem_nil d)
    · simp
    · simp
  obtain ⟨hinv, hmem⟩ := embargoLoop_inv ret.answerId res.content res.locals res.mtab
    c.embargoID called called ⟨c1, res.mtab, [], []⟩ (fun x hx => hx) hinv0
  obtain ⟨hlen, hwfF, hmonoF, hsame, hcaps, hdis, hnodup, hpair⟩ := hinv
  rw [hpr]
  refine ⟨rfl, rfl, hlen, ?_, ?_, hnodup, ?_, hpair⟩
  · intro i hb hc hex
    have hi : i ∈ (called.foldl (embargoStep ret.answerId res.content res.locals)
        ⟨c1, res.mtab, [], []⟩).embargoCaps := by
      rw [hmem i]
      exact Or.inr ⟨hb, hc, hex⟩
    obtain ⟨-, -, e, hget, d, hd, hdid, hdq, hdr, hdx⟩ := hcaps i hi
    refine ⟨e, hget, ?_, d, hd, hdid, hdq, hdr, hdx⟩
    have hmemid : e ∈ ((called.foldl (embargoStep ret.answerId res.content res.locals)
        ⟨c1, res.mtab, [], []⟩).disembargoes.map SenderLoopback.id) :=
      List.mem_map.mpr ⟨d, hd, hdid⟩
    exact List.count_eq_one_of_mem hnodup hmemid
  · intro i hni
    have hi : i ∉ (called.foldl (embargoStep ret.answerId res.content res.locals)
        ⟨c1, res.mtab, [], []⟩).embargoCaps := by
      rw [hmem i]
      rintro (hc | hc)
      · exact absurd hc (List.not_mem_nil i)
      · exact hni hc
    exact hsame i hi
  · intro d hd
    obtain ⟨hq, hx, -, -, hg0⟩ := hdis d hd
    exact ⟨hg0, hq, hx⟩

/-- conn0 exposing one export (id 0) holding the server client. -/
def connW : Conn :=
  { conn0 with exports := [some ⟨.server, 1⟩], exportID := ⟨[], 1⟩ }

/-- A payload whose content names capability slot 0, carried by a
receiverHosted descriptor for export 0 (a local capability). -/
def plW : Payld := ⟨false, .iface 0, [.receiverHosted 0]⟩

/-- Witness for parseReturn_installs_embargoes: a Return for question 5
whose result slot 0 is local and was pipelined with the empty transform
gets an embargo wrapper and exactly one scheduled disembargo. -/
theorem parseReturn_installs_embargoes_witness :
    ∃ e, ((connW.parseReturn ⟨5, .results plW⟩ [[]]).1.capTable)[0]? =
        some (.embargoed ([Client.server].getD 0 .null) e) ∧
      ((connW.parseReturn ⟨5, .results plW⟩ [[]]).1.disembargoes.map SenderLoopback.id).count e
        = 1 ∧
      ∃ d ∈ (connW.parseReturn ⟨5, .results plW⟩ [[]]).1.disembargoes, d.id = e ∧
        d.question = 5 ∧ reachIdx (Ptr.iface 0) d.xform = some 0 ∧ d.xform ∈ [[]] := by
  have h := parseReturn_installs_embargoes connW ⟨5, .results plW⟩ plW [[]]
    ⟨.iface 0, [0], [.server]⟩ connW (by decide) rfl rfl
  exact h.2.2.2.1 0 (by decide) (by decide) ⟨[], by simp, rfl⟩

end Rpc
